import Mathlib

/-
Verification development for the XLSXImporter repository
(src/XSLXImporter.js). The definitions below are a shallow embedding of
the script: JavaScript values are modelled by an explicit value type,
JavaScript objects by insertion-ordered association lists, thrown
exceptions by Except, and the external collaborators (GlideExcelParser,
GlideRecord store, gs utility object) by explicit data. Store reads and
writes and event dispatches are recorded in an effect trace so that
frame properties can be stated.
-/

namespace XLSXImporter

/-- Model of a JavaScript value as it flows through the importer:
null, undefined, booleans, numbers (modelled as integers) and strings. -/
inductive JSVal where
  | null
  | undefined
  | bool (b : Bool)
  | num (n : Int)
  | str (s : String)
deriving DecidableEq

/-- Model of the platform helper gs.nil: true exactly for null, undefined
and the empty string. -/
def gsNil : JSVal → Bool
  | .null => true
  | .undefined => true
  | .str "" => true
  | _ => false

/-- JavaScript truthiness of a modelled value: false for null, undefined,
false, 0 and the empty string, true otherwise. -/
def truthy : JSVal → Bool
  | .null => false
  | .undefined => false
  | .bool b => b
  | .num n => n != 0
  | .str s => s != ""

/-- The check guarding every event-skip branch in _parseRow, line for line
the condition at lines 605, 617, 625, 633 and 642 of the source:
the row is skipped when the dispatched value is neither nil nor truthy. -/
def eventVetoes (v : JSVal) : Bool := !(gsNil v) && !(truthy v)

/-- A JavaScript object, as the script uses them: an insertion-ordered
list of key-value pairs with (in well-formed objects) distinct keys. -/
abbrev JSObj : Type := List (String × JSVal)

/-- Property read obj[k]: the stored value, or undefined when absent. -/
def objGet (o : JSObj) (k : String) : JSVal :=
  match o.find? (fun p => p.1 = k) with
  | some p => p.2
  | none => .undefined

/-- Property write obj[k] = v: overwrites in place when the key exists,
otherwise appends, as JavaScript objects preserve insertion order. -/
def objSet (o : JSObj) (k : String) (v : JSVal) : JSObj :=
  if o.any (fun p => p.1 = k) then o.map (fun p => if p.1 = k then (k, v) else p)
  else o ++ [(k, v)]

/-- Generic keyed lookup in an association list, modelling property access
on the configuration objects (_mappings, _transforms, _validations,
_events) which yields undefined (here none) for absent keys. -/
def lookupKey {α : Type} (m : List (String × α)) (k : String) : Option α :=
  (m.find? (fun p => p.1 = k)).map Prod.snd

/-- ASCII whitespace as the regex \s and String.trim treat the inputs
appearing here. -/
def isWS (c : Char) : Bool := c == ' ' || c == '\t' || c == '\n' || c == '\r'

/-- Model of String.prototype.trim restricted to ASCII whitespace. -/
def jsTrim (s : String) : String :=
  ⟨((s.data.dropWhile isWS).reverse.dropWhile isWS).reverse⟩

/-- Model of String.prototype.toLowerCase on the ASCII strings used here. -/
def lowerString (s : String) : String := ⟨s.data.map Char.toLower⟩

/-- Model of replace(/\s+/gm, " "): every maximal run of whitespace
becomes a single space. -/
def collapseWS : List Char → List Char
  | [] => []
  | [c] => if isWS c then [' '] else [c]
  | c :: d :: cs =>
    if isWS c && isWS d then collapseWS (d :: cs)
    else (if isWS c then ' ' else c) :: collapseWS (d :: cs)

/-- The _normalize method: trim, lowercase, strip tab, LF and CR
characters, then collapse whitespace runs to a single space. -/
def normalize (value : String) : String :=
  let v1 := jsTrim value
  let v2 := lowerString v1
  let v3 : String := ⟨v2.data.filter (fun c => !(c == '\t' || c == '\n' || c == '\r'))⟩
  ⟨collapseWS v3.data⟩

/-- Payload object assembled by _triggerEvent for a callback: each key is
present only when the corresponding argument was not nil. -/
structure EventData where
  row : Option JSObj
  index : Option Int
  sys_id : Option JSVal

/-- An event callback: receives the payload object and either returns a
value or throws. -/
def Handler : Type := EventData → Except JSVal JSVal

/-- One entry of a _validations chain: the validation method (which
receives the mapped row and the field name and may throw) together with
its configured failure message. -/
structure ValidationEntry where
  method : JSObj → String → Except JSVal JSVal
  message : String

/-- The importer instance state built by the configuration methods,
mirroring the fields initialised in the constructor. -/
structure ImporterState where
  virtual : Bool
  sloppy : Bool
  mappings : List (String × String)
  transforms : List (String × List (JSVal → Except JSVal JSVal))
  validations : List (String × List ValidationEntry)
  coalescing : List String
  ignored : List String
  required : List String
  events : List (String × Handler)

/-- One record of the external table: its sys_id and its field values. -/
structure StoreRecord where
  sys_id : String
  fields : JSObj
deriving DecidableEq

/-- The external record store reached through GlideRecord: the current
records in table order, plus a counter used to mint fresh sys_ids. -/
structure Store where
  records : List StoreRecord
  nextId : Nat
deriving DecidableEq

/-- Observable interactions with the collaborators, recorded in order:
store queries, record creations and updates, and event dispatches (the
latter recorded when a registered callback is invoked). -/
inductive Effect where
  | storeQuery (conds : List (String × JSVal))
  | storeCreate (sys_id : String) (data : JSObj)
  | storeUpdate (sys_id : String) (data : JSObj)
  | eventDispatch (name : String)
deriving DecidableEq

/-- True for the effects that write the store. -/
def isWriteEffect : Effect → Bool
  | .storeCreate _ _ => true
  | .storeUpdate _ _ => true
  | _ => false

/-- Builds the data object passed to a callback, as _triggerEvent does:
row, index and sys_id are attached only when not nil. -/
def mkEventData (row : Option JSObj) (index : Option Int) (sys_id : JSVal) : EventData :=
  { row := row, index := index, sys_id := if gsNil sys_id then none else some sys_id }

/-- The _triggerEvent method (reading this._events): normalizes the
event name, looks up the callback, returns null when none is registered,
otherwise invokes it on the payload (recording the dispatch). -/
def triggerEvent (events : List (String × Handler)) (event : String) (row : Option JSObj)
    (index : Option Int) (sys_id : JSVal) : Except JSVal JSVal × List Effect :=
  match lookupKey events (normalize event) with
  | none => (.ok .null, [])
  | some f => (f (mkEventData row index sys_id), [.eventDispatch (normalize event)])

/-- The _normalizeRowHeaders method: rebuilds the row object with every
key normalized (later keys overwrite earlier ones that collide). -/
def normalizeRowHeaders (row : JSObj) : JSObj :=
  row.foldl (fun acc p => objSet acc (normalize p.1) p.2) []

/-- The _isEmptyRow method: true when no key holds a non-nil value. -/
def isEmptyRow (row : JSObj) : Bool :=
  (row.filter (fun p => !(gsNil p.2))).length = 0

/-- The _ignoreRowHeaders method: rebuilds the row without the keys
listed in _ignored. -/
def ignoreRowHeaders (st : ImporterState) (row : JSObj) : JSObj :=
  row.foldl (fun acc p => if st.ignored.contains p.1 then acc else objSet acc p.1 p.2) []

/-- The _mapHeadersToFields method: for every header with a falsy or
missing mapping the pair is dropped, otherwise the value is stored under
the mapped field name (later headers overwrite colliding fields). -/
def mapHeadersToFields (st : ImporterState) (row : JSObj) : JSObj :=
  row.foldl (fun acc p =>
    match lookupKey st.mappings (normalize p.1) with
    | none => acc
    | some field => if field = "" then acc else objSet acc field p.2) []

/-- Feeds a value through a transform chain in order; a throw aborts. -/
def applyTransforms : JSVal → List (JSVal → Except JSVal JSVal) → Except JSVal JSVal
  | v, [] => .ok v
  | v, f :: fs =>
    match f v with
    | .error ex => .error ex
    | .ok v2 => applyTransforms v2 fs

/-- Loop body of _transformRowValues (reading this._transforms) over the
remaining field names. -/
def transformFieldsGo (transforms : List (String × List (JSVal → Except JSVal JSVal)))
    (row : JSObj) (acc : JSObj) : List String → Except JSVal JSObj
  | [] => .ok acc
  | f :: fs =>
    let value := objGet row f
    let tv : Except JSVal JSVal := match lookupKey transforms f with
      | none => .ok value
      | some ts => applyTransforms value ts
    match tv with
    | .error ex => .error ex
    | .ok v2 => transformFieldsGo transforms row (objSet acc f v2) fs

/-- The _transformRowValues method: rebuilds the row applying each
field-registered transform chain to its value. -/
def transformRowValues (st : ImporterState) (row : JSObj) : Except JSVal JSObj :=
  transformFieldsGo st.transforms row [] (row.map Prod.fst)

/-- Inner loop of _validateRowValues: runs the validation entries of one
field in registration order; the first non-truthy result yields the
paired message and the field name. -/
def validateFieldChain (row : JSObj) (field : String) :
    List ValidationEntry → Except JSVal (Option (String × String))
  | [] => .ok none
  | e :: rest =>
    match e.method row field with
    | .error ex => .error ex
    | .ok valid =>
      if truthy valid then validateFieldChain row field rest
      else .ok (some (e.message, field))

/-- Outer loop of _validateRowValues (reading this._validations) over
the row fields in insertion order; fields without a validation chain are
skipped. -/
def validateFieldsGo (validations : List (String × List ValidationEntry)) (row : JSObj) :
    List String → Except JSVal (Option (String × String))
  | [] => .ok none
  | f :: fs =>
    match lookupKey validations f with
    | none => validateFieldsGo validations row fs
    | some farray =>
      match validateFieldChain row f farray with
      | .error ex => .error ex
      | .ok none => validateFieldsGo validations row fs
      | .ok (some r) => .ok (some r)

/-- The _validateRowValues method: returns the message and field of the
first failing validator, or none when the row is valid. -/
def validateRowValues (st : ImporterState) (row : JSObj) :
    Except JSVal (Option (String × String)) :=
  validateFieldsGo st.validations row (row.map Prod.fst)

/-- The MESSAGES map initialised in the constructor. -/
def MESSAGES : Nat → String := fun code =>
  if code = 0 then "Record imported correctly"
  else if code = 1 then "Record skipped because empty"
  else if code = 2 then "Record skipped after result of event: "
  else if code = 3 then "Record skipped after validation failed: "
  else if code = 4 then "Record skipped due to unexpected error"
  else ""

/-- JavaScript string concatenation as used by message += info (both
operands are strings at the single call site). -/
def jsStrAppend (a b : JSVal) : JSVal :=
  match a, b with
  | .str x, .str y => .str (x ++ y)
  | _, _ => .null

/-- Result object of one row, as _createRowResult builds it. -/
structure RowResult where
  row : Int
  code : Nat
  message : JSVal
  target : JSVal
  error : JSVal
deriving DecidableEq

/-- The _createRowResult method: the message is the caller info for a
validation failure, the MESSAGES text otherwise (with the info appended
for event skips); target and error fall back to null when falsy. -/
def createRowResult (index : Int) (code : Nat) (info : JSVal) (target : JSVal)
    (error : JSVal) : RowResult :=
  let base := if code = 3 then info else JSVal.str (MESSAGES code)
  let message := if code = 2 && !(gsNil info) then jsStrAppend base info else base
  { row := index, code := code, message := message,
    target := if truthy target then target else .null,
    error := if truthy error then error else .null }

/-- Conjunction of equality conditions built by the loop of
_getCoalescenceRecord: one condition per coalescing field whose row
value is not nil (nil-valued fields are skipped with a warning). -/
def coalesceConds (st : ImporterState) (data : JSObj) : List (String × JSVal) :=
  (st.coalescing.filter (fun f => !(gsNil (objGet data f)))).map
    (fun f => (f, objGet data f))

/-- A record satisfies a conjunction of equality conditions. -/
def condsMatch (conds : List (String × JSVal)) (r : StoreRecord) : Bool :=
  conds.all (fun c => objGet r.fields c.1 == c.2)

/-- Candidate loop of _getCoalescenceRecord: dispatches onCoalesce for
each matching record in store order; a nil or truthy callback result (in
particular the absence of a callback) accepts the candidate. -/
def coalesceLoop (events : List (String × Handler)) :
    List StoreRecord → Except JSVal (Option String) × List Effect
  | [] => (.ok none, [])
  | r :: rest =>
    match triggerEvent events "onCoalesce" none none (.str r.sys_id) with
    | (.error ex, effs) => (.error ex, effs)
    | (.ok valid, effs) =>
      if gsNil valid || truthy valid then (.ok (some r.sys_id), effs)
      else
        match coalesceLoop events rest with
        | (res, effs2) => (res, effs ++ effs2)

/-- The _getCoalescenceRecord method: with no coalescing fields
configured it returns null at once; otherwise it queries the store with
the conditions built from the non-nil coalescing values (zero conditions
match every record) and runs the candidate loop. -/
def getCoalescenceRecord (st : ImporterState) (data : JSObj) (store : Store) :
    Except JSVal (Option String) × List Effect :=
  if st.coalescing.length = 0 then (.ok none, [])
  else
    let conds := coalesceConds st data
    let hits := store.records.filter (condsMatch conds)
    match coalesceLoop st.events hits with
    | (res, effs) => (res, .storeQuery conds :: effs)

/-- Writes every data field into a record field map, as the setValue
loop of _createUpdateRecord does. -/
def setAllValues (fields : JSObj) (data : JSObj) : JSObj :=
  data.foldl (fun acc p => objSet acc p.1 p.2) fields

/-- The _createUpdateRecord method: resolves coalescence, then either
creates a fresh record (default-initialised, here empty) or loads the
matched one, writes the data values and persists, returning the sys_id. -/
def createUpdateRecord (st : ImporterState) (data : JSObj) (store : Store) :
    Except JSVal (String × Store) × List Effect :=
  match getCoalescenceRecord st data store with
  | (.error ex, effs) => (.error ex, effs)
  | (.ok none, effs) =>
    let sid := "new" ++ toString store.nextId
    let newRec : StoreRecord := { sys_id := sid, fields := setAllValues [] data }
    (.ok (sid, { records := store.records ++ [newRec], nextId := store.nextId + 1 }),
      effs ++ [.storeCreate sid data])
  | (.ok (some sid), effs) =>
    let recs := store.records.map (fun r =>
      if r.sys_id = sid then { r with fields := setAllValues r.fields data } else r)
    (.ok (sid, { records := recs, nextId := store.nextId }), effs ++ [.storeUpdate sid data])

/-- Lines 635 to 646 of _parseRow: in virtual mode nothing is persisted
and the success result carries a null target; otherwise the record is
created or updated, onRowImported is dispatched with the sys_id, a veto
skips the row, and the success result carries the sys_id as target. -/
def parseRowPersist (st : ImporterState) (row : JSObj) (index : Int) (store : Store) :
    Except JSVal RowResult × Store × List Effect :=
  if st.virtual then
    (.ok (createRowResult index 0 .null .null .null), store, [])
  else
    match createUpdateRecord st row store with
    | (.error ex, effs) => (.error ex, store, effs)
    | (.ok (sys_id, store2), effs) =>
      match triggerEvent st.events "onRowImported" (some row) (some index) (.str sys_id) with
      | (.error ex, effs2) => (.error ex, store2, effs ++ effs2)
      | (.ok valid, effs2) =>
        if eventVetoes valid then
          (.ok (createRowResult index 2 (.str "onRowImported") .null .null), store2,
            effs ++ effs2)
        else
          (.ok (createRowResult index 0 .null (.str sys_id) .null), store2, effs ++ effs2)

/-- Lines 628 to 646 of _parseRow: transform the row values, dispatch
onRowTransformed (a veto skips the row), then persist. -/
def parseRowTail (st : ImporterState) (row : JSObj) (index : Int) (store : Store) :
    Except JSVal RowResult × Store × List Effect :=
  match transformRowValues st row with
  | .error ex => (.error ex, store, [])
  | .ok row2 =>
    match triggerEvent st.events "onRowTransformed" (some row2) (some index) .null with
    | (.error ex, effs) => (.error ex, store, effs)
    | (.ok valid, effs) =>
      if eventVetoes valid then
        (.ok (createRowResult index 2 (.str "onRowTransformed") .null .null), store, effs)
      else
        match parseRowPersist st row2 index store with
        | (res, store2, effs2) => (res, store2, effs ++ effs2)

/-- Lines 613 to 626 of _parseRow: skipped entirely in sloppy mode;
otherwise dispatch onRowValidating, run the validation chains (a failure
yields the SKIPPED_VALIDATION result with the message and the field as
target), then dispatch onRowValidated. Returns some result to exit the
row early, none to continue. -/
def parseRowValidateSection (st : ImporterState) (row : JSObj) (index : Int) :
    Except JSVal (Option RowResult) × List Effect :=
  if st.sloppy then (.ok none, [])
  else
    match triggerEvent st.events "onRowValidating" (some row) (some index) .null with
    | (.error ex, effs) => (.error ex, effs)
    | (.ok valid, effs) =>
      if eventVetoes valid then
        (.ok (some (createRowResult index 2 (.str "onRowValidating") .null .null)), effs)
      else
        match validateRowValues st row with
        | .error ex => (.error ex, effs)
        | .ok (some r) =>
          (.ok (some (createRowResult index 3 (.str r.1) (.str r.2) .null)), effs)
        | .ok none =>
          match triggerEvent st.events "onRowValidated" (some row) (some index) .null with
          | (.error ex, effs2) => (.error ex, effs ++ effs2)
          | (.ok valid2, effs2) =>
            if eventVetoes valid2 then
              (.ok (some (createRowResult index 2 (.str "onRowValidated") .null .null)),
                effs ++ effs2)
            else (.ok none, effs ++ effs2)

/-- Lines 607 to 646 of _parseRow: remove ignored headers, map headers
to fields, run the validation section, then the tail of the pipeline. -/
def parseRowAfterRead (st : ImporterState) (row : JSObj) (index : Int) (store : Store) :
    Except JSVal RowResult × Store × List Effect :=
  let row1 := ignoreRowHeaders st row
  let row2 := mapHeadersToFields st row1
  match parseRowValidateSection st row2 index with
  | (.error ex, effs) => (.error ex, store, effs)
  | (.ok (some r), effs) => (.ok r, store, effs)
  | (.ok none, effs) =>
    match parseRowTail st row2 index store with
    | (res, store2, effs2) => (res, store2, effs ++ effs2)

/-- Body of the try block of _parseRow: normalize the row headers, exit
with SKIPPED_EMPTY when every value is nil, dispatch onRowRead (a veto
skips the row), then run the rest of the pipeline. An error value is an
exception escaping to the catch clause. -/
def parseRowE (st : ImporterState) (rawRow : JSObj) (index : Int) (store : Store) :
    Except JSVal RowResult × Store × List Effect :=
  let row := normalizeRowHeaders rawRow
  if isEmptyRow row then (.ok (createRowResult index 1 .null .null .null), store, [])
  else
    match triggerEvent st.events "onRowRead" (some row) (some index) .null with
    | (.error ex, effs) => (.error ex, store, effs)
    | (.ok valid, effs) =>
      if eventVetoes valid then
        (.ok (createRowResult index 2 (.str "onRowRead") .null .null), store, effs)
      else
        match parseRowAfterRead st row index store with
        | (res, store2, effs2) => (res, store2, effs ++ effs2)

/-- The _parseRow method: the try body, with the catch clause turning
any uncaught exception into an ERROR result carrying the thrown value. -/
def parseRow (st : ImporterState) (rawRow : JSObj) (index : Int) (store : Store) :
    RowResult × Store × List Effect :=
  match parseRowE st rawRow index store with
  | (.ok r, store2, effs) => (r, store2, effs)
  | (.error ex, store2, effs) => (createRowResult index 4 .null .null ex, store2, effs)

/-- Result of _validateHeaders: overall success plus every missing
required header collected in order. -/
structure HeadersCheck where
  success : Bool
  missing : List String
deriving DecidableEq

/-- The _validateHeaders method: normalizes the file headers and
collects every required header absent from them. -/
def validateHeaders (st : ImporterState) (headers : List String) : HeadersCheck :=
  let nheaders := headers.map normalize
  st.required.foldl (fun acc required =>
    if nheaders.contains required then acc
    else { success := false, missing := acc.missing ++ [required] })
    { success := true, missing := [] }

/-- Data payload of the overall import result: nothing, the missing
header list, or the per-row results. -/
inductive ImportData where
  | noData
  | missingHeaders (hs : List String)
  | rowResults (rs : List RowResult)
deriving DecidableEq

/-- Overall result object built by _createReturnValue (elapsed time,
being wall-clock, is not modelled). -/
structure ImportResult where
  success : Bool
  code : String
  message : String
  rows : Nat
  data : ImportData
deriving DecidableEq

/-- The _createReturnValue method: success is true exactly for the
success code. -/
def createReturnValue (code : String) (message : String) (data : ImportData)
    (rows : Nat) : ImportResult :=
  { success := code == "success", code := code, message := message,
    rows := rows, data := data }

/-- The while loop of the import method: one parseRow call per row, the
store threaded through, one result collected per row. -/
def importRows (st : ImporterState) (index : Int) (store : Store) :
    List JSObj → List RowResult × Store × List Effect
  | [] => ([], store, [])
  | r :: rs =>
    match parseRow st r index store with
    | (res, store2, effs) =>
      match importRows st (index + 1) store2 rs with
      | (rest, store3, effs2) => (res :: rest, store3, effs ++ effs2)

/-- The spreadsheet parser collaborator, as the import method observes
it: whether parse succeeded, its error message, the column headers and
the sequence of rows. -/
structure ParserInput where
  parseOk : Bool
  errorMessage : String
  headers : List String
  rows : List JSObj

/-- Observable outcome of one import invocation: the returned result,
whether parser.close() was invoked before returning, the final store and
the effect trace. -/
structure ImportOutput where
  result : ImportResult
  closed : Bool
  store : Store
  effects : List Effect

/-- The import method: an unsuccessful parse returns PARSING_ERROR at
once; a missing required header (unless sloppy) returns
MISSING_REQUIRED_HEADER at once; neither early return reaches the
parser.close() call at line 187, which only the success path executes
after the row loop. -/
def runImport (st : ImporterState) (input : ParserInput) (store : Store) : ImportOutput :=
  if !input.parseOk then
    { result := createReturnValue "parsing_error" input.errorMessage .noData 0,
      closed := false, store := store, effects := [] }
  else if !st.sloppy && !(validateHeaders st input.headers).success then
    { result := createReturnValue "missing_required_header"
        "One or more required headers are missing"
        (.missingHeaders (validateHeaders st input.headers).missing) 0,
      closed := false, store := store, effects := [] }
  else
    match importRows st 2 store input.rows with
    | (results, store2, effs) =>
      { result := createReturnValue "success" "Import completed successfully"
          (.rowResults results) results.length,
        closed := true, store := store2, effects := effs }

/-- The ignore configuration method: rejects an empty header, then
throws when the normalized header is already required (the source throws
a ReferenceError there, since the message references an undeclared
variable, but an exception is raised either way before any mutation),
otherwise appends the header to the ignored list if new. -/
def ignore (st : ImporterState) (header : String) : Except String ImporterState :=
  if header = "" then .error "Invalid parameter: the header parameter is empty or not a string"
  else
    let h := normalize header
    if st.required.contains h then .error "the field is also a required one"
    else .ok { st with ignored := if st.ignored.contains h then st.ignored else st.ignored ++ [h] }

/-- The require configuration method: rejects an empty header, then
throws when the normalized header is already ignored (again before any
mutation), otherwise appends the header to the required list if new. -/
def require (st : ImporterState) (header : String) : Except String ImporterState :=
  if header = "" then .error "Invalid parameter: the header parameter is empty or not a string"
  else
    let h := normalize header
    if st.ignored.contains h then .error "the field is set to be ignored"
    else .ok { st with required := if st.required.contains h then st.required else st.required ++ [h] }

/-- Row codes of a finished import, for comparing two runs. -/
def outputRowCodes (o : ImportOutput) : List Nat :=
  match o.result.data with
  | .rowResults rs => rs.map RowResult.code
  | _ => []

/-- Row targets of a finished import. -/
def outputRowTargets (o : ImportOutput) : List JSVal :=
  match o.result.data with
  | .rowResults rs => rs.map RowResult.target
  | _ => []

/-- A validation method that cannot throw, together with its message:
used to state ordering properties of the validation pipeline. -/
structure PureValidation where
  method : JSObj → String → JSVal
  message : String

/-- Lifts a non-throwing validation into the general entry form. -/
def liftValidation (p : PureValidation) : ValidationEntry :=
  { method := fun row field => .ok (p.method row field), message := p.message }

/-- Lifts a whole non-throwing validation table. -/
def liftValidations (pv : List (String × List PureValidation)) :
    List (String × List ValidationEntry) :=
  pv.map (fun p => (p.1, p.2.map liftValidation))

/-- Written from the claim wording, not from the code: the schedule of
validator applications for a row, fields in the row insertion order and,
within a field, validators in registration order. -/
def specValidationSchedule (pv : List (String × List PureValidation)) (row : JSObj) :
    List (String × PureValidation) :=
  (row.map Prod.fst).flatMap (fun f =>
    match lookupKey pv f with
    | none => []
    | some vs => vs.map (fun v => (f, v)))

/-- Written from the claim wording: the message and offending field of
the first validator in the schedule returning a non-truthy value. -/
def specFirstFailure (pv : List (String × List PureValidation)) (row : JSObj) :
    Option (String × String) :=
  ((specValidationSchedule pv row).find? (fun p => !(truthy (p.2.method row p.1)))).map
    (fun p => (p.2.message, p.1))

/- Concrete fixtures used by counterexamples and witnesses. -/

/-- Base configuration: no chains, no handlers, every mode off. -/
def baseState : ImporterState :=
  { virtual := false, sloppy := false, mappings := [], transforms := [],
    validations := [], coalescing := [], ignored := [], required := [], events := [] }

/-- The empty store. -/
def store0 : Store := { records := [], nextId := 0 }

/-- Configuration mapping header h to field f whose onRowImported
callback returns false. -/
def cfg1 : ImporterState :=
  { baseState with
      mappings := [("h", "f")],
      events := [("onrowimported", fun _ => .ok (.bool false))] }

/-- A one-cell row under header h. -/
def row1 : JSObj := [("h", .str "x")]

/-- Configuration with a validator rejecting the value bad on field f
and an onRowImported callback returning false. -/
def cfg3 : ImporterState :=
  { baseState with
      mappings := [("h", "f")],
      validations := [("f", [{ method := fun row field => .ok (.bool (objGet row field != .str "bad")),
                               message := "bad value" }])],
      events := [("onrowimported", fun _ => .ok (.bool false))] }

/-- A two-row file: the first row fails validation, the second passes. -/
def input3 : ParserInput :=
  { parseOk := true, errorMessage := "", headers := ["h"],
    rows := [[("h", .str "bad")], [("h", .str "ok")]] }

/-- Configuration with one coalescing field f and an onCoalesce callback
that throws; its persistence step always throws once a candidate record
exists. -/
def cfg3b : ImporterState :=
  { baseState with
      mappings := [("h", "f")],
      coalescing := ["f"],
      events := [("oncoalesce", fun _ => .error (.str "cboom"))] }

/-- A store holding one record matching the row of input3b on field f. -/
def store3b : Store :=
  { records := [{ sys_id := "r1", fields := [("f", .str "x")] }], nextId := 0 }

/-- A one-row file whose row coalesces with the record of store3b. -/
def input3b : ParserInput :=
  { parseOk := true, errorMessage := "", headers := ["h"], rows := [[("h", .str "x")]] }

/-- Configuration whose onRowRead callback returns the number 0, a falsy
value that is neither the boolean false nor nil. -/
def cfg4 : ImporterState :=
  { baseState with events := [("onrowread", fun _ => .ok (.num 0))] }

/-- Configuration with one coalescing field a. -/
def cfg5 : ImporterState := { baseState with coalescing := ["a"] }

/-- Row data in which the only coalescing field a is nil. -/
def data5 : JSObj := [("a", .null), ("b", .str "v")]

/-- A store already holding one record, unrelated to the row. -/
def store5 : Store :=
  { records := [{ sys_id := "r1", fields := [("a", .str "zzz")] }], nextId := 0 }

/-- Configuration whose single validator on field f throws. -/
def cfg6 : ImporterState :=
  { baseState with
      mappings := [("h", "f")],
      validations := [("f", [{ method := fun _ _ => .error (.str "boom"), message := "m" }])] }

/-- Configuration whose single validator on field f throws the falsy
value 0. -/
def cfg6f : ImporterState :=
  { baseState with
      mappings := [("h", "f")],
      validations := [("f", [{ method := fun _ _ => .error (.num 0), message := "m" }])] }

/-- Two non-throwing validators on field f: the first rejects the value
x, the second rejects everything. -/
def pv7 : List (String × List PureValidation) :=
  [("f", [{ method := fun r fl => .bool (objGet r fl != .str "x"), message := "m1" },
          { method := fun _ _ => .bool false, message := "m2" }])]

/-- Configuration carrying the lifted pv7 validators. -/
def cfg7 : ImporterState := { baseState with validations := liftValidations pv7 }

/-- Configuration with header a required and header b ignored. -/
def cfg8 : ImporterState := { baseState with required := ["a"], ignored := ["b"] }

/-- Configuration ignoring the normalized header a. -/
def cfg10 : ImporterState := { baseState with ignored := ["a"] }

/-- A row whose two headers collide after normalization: the non-nil
value under header A is overwritten by the nil value under header a. -/
def row10 : JSObj := [("A", .str "x"), ("a", .null)]

/-- A parser whose parse call failed. -/
def badInput : ParserInput :=
  { parseOk := false, errorMessage := "boom", headers := [], rows := [] }

/-- Configuration requiring the header id. -/
def cfg2r : ImporterState := { baseState with required := ["id"] }

/-- A well-parsed file missing the required header id. -/
def missInput : ParserInput :=
  { parseOk := true, errorMessage := "", headers := ["other"],
    rows := [[("other", .str "x")]] }

/-- A well-parsed one-row file. -/
def okInput : ParserInput :=
  { parseOk := true, errorMessage := "", headers := ["h"], rows := [[("h", .str "x")]] }

/- Small projection lemmas. -/

@[simp] lemma createRowResult_code (i : Int) (c : Nat) (a b e : JSVal) :
    (createRowResult i c a b e).code = c := rfl

@[simp] lemma createRowResult_row (i : Int) (c : Nat) (a b e : JSVal) :
    (createRowResult i c a b e).row = i := rfl

lemma createRowResult_target (i : Int) (c : Nat) (a b e : JSVal) :
    (createRowResult i c a b e).target = if truthy b then b else .null := rfl

lemma createRowResult_error (i : Int) (c : Nat) (a b e : JSVal) :
    (createRowResult i c a b e).error = if truthy e then e else .null := rfl

/-- Either createUpdateRecord throws, or its effect trace contains a
store write. -/
lemma createUpdateRecord_write (st : ImporterState) (data : JSObj) (store : Store) :
    (∃ ex, (createUpdateRecord st data store).1 = .error ex) ∨
    ∃ e ∈ (createUpdateRecord st data store).2, isWriteEffect e = true := by
  unfold createUpdateRecord
  rcases hg : getCoalescenceRecord st data store with ⟨res, geffs⟩
  match res with
  | .error ex => exact Or.inl ⟨ex, rfl⟩
  | .ok none =>
    refine Or.inr ⟨.storeCreate ("new" ++ toString store.nextId) data, ?_, rfl⟩
    simp
  | .ok (some sid0) =>
    refine Or.inr ⟨.storeUpdate sid0 data, ?_, rfl⟩
    simp

/-- Behaviour of the persistence block after a successful store write:
the registered onRowImported callback decides between the SKIPPED_EVENT
result (null target) and the SUCCESS result (sys_id target). -/
lemma parseRowPersist_afterWrite (st : ImporterState) (row : JSObj) (index : Int)
    (store : Store) (f : Handler) (sid : String) (store2 : Store) (effs : List Effect)
    (v : JSVal)
    (hv : st.virtual = false)
    (hcu : createUpdateRecord st row store = (.ok (sid, store2), effs))
    (hf : lookupKey st.events "onrowimported" = some f)
    (hr : f (mkEventData (some row) (some index) (.str sid)) = .ok v) :
    parseRowPersist st row index store =
      (if eventVetoes v then
        (.ok (createRowResult index 2 (.str "onRowImported") .null .null), store2,
          effs ++ [.eventDispatch "onrowimported"])
      else
        (.ok (createRowResult index 0 .null (.str sid) .null), store2,
          effs ++ [.eventDispatch "onrowimported"])) := by
  have hnorm : normalize "onRowImported" = "onrowimported" := rfl
  unfold parseRowPersist
  rw [hv]
  simp only [Bool.false_eq_true, if_false]
  rw [hcu]
  dsimp only
  unfold triggerEvent
  rw [hnorm, hf]
  dsimp only
  rw [hr]

/- C1 -/

/-- C1: counterexample. The claim says a false return from the
onRowImported callback never skips the row and the row still terminates
with SUCCESS and the persisted sys_id as target; on cfg1 and row1 the
row instead terminates with SKIPPED_EVENT (code 2), the message tagged
with the event name, and a null target. -/
theorem c1_counterexample :
    (parseRow cfg1 row1 2 store0).1.code = 2 ∧
    (parseRow cfg1 row1 2 store0).1.target = .null ∧
    (parseRow cfg1 row1 2 store0).1.message =
      .str "Record skipped after result of event: onRowImported" :=
  ⟨rfl, rfl, rfl⟩

/-- C1 (amended): in non-virtual mode, once the record is persisted and
the onRowImported callback returns a value, a vetoing value (the boolean
false in particular) terminates the row with SKIPPED_EVENT tagged
onRowImported and a null target, while any other value terminates it
with SUCCESS and the persisted sys_id as target. -/
theorem c1_amended_theorem (st : ImporterState) (row : JSObj) (index : Int)
    (store : Store) (f : Handler) (sid : String) (store2 : Store) (effs : List Effect)
    (v : JSVal)
    (hv : st.virtual = false)
    (hcu : createUpdateRecord st row store = (.ok (sid, store2), effs))
    (hf : lookupKey st.events "onrowimported" = some f)
    (hr : f (mkEventData (some row) (some index) (.str sid)) = .ok v) :
    parseRowPersist st row index store =
      (if eventVetoes v then
        (.ok (createRowResult index 2 (.str "onRowImported") .null .null), store2,
          effs ++ [.eventDispatch "onrowimported"])
      else
        (.ok (createRowResult index 0 .null (.str sid) .null), store2,
          effs ++ [.eventDispatch "onrowimported"])) :=
  parseRowPersist_afterWrite st row index store f sid store2 effs v hv hcu hf hr

/-- C1 witness: the amended theorem applied to cfg1, the mapped row and
the empty store. -/
theorem c1_witness :
    parseRowPersist cfg1 [("f", .str "x")] 2 store0 =
      (.ok (createRowResult 2 2 (.str "onRowImported") .null .null),
        { records := [{ sys_id := "new0", fields := [("f", .str "x")] }], nextId := 1 },
        [Effect.storeCreate "new0" [("f", .str "x")], Effect.eventDispatch "onrowimported"]) := by
  have h := c1_amended_theorem cfg1 [("f", .str "x")] 2 store0
    (fun _ => .ok (.bool false)) "new0"
    { records := [{ sys_id := "new0", fields := [("f", .str "x")] }], nextId := 1 }
    [Effect.storeCreate "new0" [("f", .str "x")]] (.bool false)
    rfl rfl rfl rfl
  simpa using h

/- C2 -/

/-- C2: the parser is closed only on the success path; both the
parsing_error early return and the missing_required_header early return
leave it open, contradicting the claim that every exit path closes it. -/
theorem c2_close_behaviour :
    ((runImport baseState badInput store0).closed = false ∧
     (runImport baseState badInput store0).result.code = "parsing_error") ∧
    ((runImport cfg2r missInput store0).closed = false ∧
     (runImport cfg2r missInput store0).result.code = "missing_required_header" ∧
     (runImport cfg2r missInput store0).result.data = .missingHeaders ["id"]) ∧
    (runImport baseState okInput store0).closed = true :=
  ⟨⟨rfl, rfl⟩, ⟨rfl, rfl, rfl⟩, rfl⟩

/- C4 -/

/-- C4: counterexample. The claim says only the exact boolean false
skips, any other return continuing; on cfg4 the onRowRead callback
returns the number 0, which is neither false nor nil, yet the row is
skipped with SKIPPED_EVENT tagged onRowRead. -/
theorem c4_counterexample :
    (parseRow cfg4 row1 2 store0).1.code = 2 ∧
    (parseRow cfg4 row1 2 store0).1.message =
      .str "Record skipped after result of event: onRowRead" :=
  ⟨rfl, rfl⟩

/-- C4 (amended): at every lifecycle event dispatch of the row pipeline
(onRowRead, onRowValidating, onRowValidated, onRowTransformed and
onRowImported) the skip decision is the same guard on the handler
return: a value that is neither nil (null, undefined, empty string) nor
truthy - the boolean false, or 0 - skips the row with SKIPPED_EVENT
tagged with that event name, while a nil or truthy return, or the
absence of a handler, lets processing continue. -/
theorem c4_amended_theorem (st : ImporterState) (row row2 row3 : JSObj) (index : Int)
    (store : Store) (f : Handler) (v : JSVal) (sid : String) (store2 : Store)
    (effs : List Effect) :
    (isEmptyRow (normalizeRowHeaders row) = false →
      lookupKey st.events "onrowread" = none →
      parseRowE st row index store
        = parseRowAfterRead st (normalizeRowHeaders row) index store) ∧
    (isEmptyRow (normalizeRowHeaders row) = false →
      lookupKey st.events "onrowread" = some f →
      f (mkEventData (some (normalizeRowHeaders row)) (some index) .null) = .ok v →
      parseRowE st row index store =
        (if eventVetoes v then
          (.ok (createRowResult index 2 (.str "onRowRead") .null .null), store,
            [.eventDispatch "onrowread"])
        else
          ((parseRowAfterRead st (normalizeRowHeaders row) index store).1,
           (parseRowAfterRead st (normalizeRowHeaders row) index store).2.1,
           .eventDispatch "onrowread"
             :: (parseRowAfterRead st (normalizeRowHeaders row) index store).2.2))) ∧
    (st.sloppy = false →
      lookupKey st.events "onrowvalidating" = some f →
      f (mkEventData (some row2) (some index) .null) = .ok v →
      validateRowValues st row2 = .ok none →
      lookupKey st.events "onrowvalidated" = none →
      parseRowValidateSection st row2 index =
        (if eventVetoes v then
          (.ok (some (createRowResult index 2 (.str "onRowValidating") .null .null)),
            [.eventDispatch "onrowvalidating"])
        else (.ok none, [.eventDispatch "onrowvalidating"]))) ∧
    (st.sloppy = false →
      lookupKey st.events "onrowvalidating" = none →
      validateRowValues st row2 = .ok none →
      lookupKey st.events "onrowvalidated" = some f →
      f (mkEventData (some row2) (some index) .null) = .ok v →
      parseRowValidateSection st row2 index =
        (if eventVetoes v then
          (.ok (some (createRowResult index 2 (.str "onRowValidated") .null .null)),
            [.eventDispatch "onrowvalidated"])
        else (.ok none, [.eventDispatch "onrowvalidated"]))) ∧
    (transformRowValues st row2 = .ok row3 →
      lookupKey st.events "onrowtransformed" = some f →
      f (mkEventData (some row3) (some index) .null) = .ok v →
      parseRowTail st row2 index store =
        (if eventVetoes v then
          (.ok (createRowResult index 2 (.str "onRowTransformed") .null .null), store,
            [.eventDispatch "onrowtransformed"])
        else
          ((parseRowPersist st row3 index store).1,
           (parseRowPersist st row3 index store).2.1,
           .eventDispatch "onrowtransformed"
             :: (parseRowPersist st row3 index store).2.2))) ∧
    (st.virtual = false →
      createUpdateRecord st row2 store = (.ok (sid, store2), effs) →
      lookupKey st.events "onrowimported" = some f →
      f (mkEventData (some row2) (some index) (.str sid)) = .ok v →
      parseRowPersist st row2 index store =
        (if eventVetoes v then
          (.ok (createRowResult index 2 (.str "onRowImported") .null .null), store2,
            effs ++ [.eventDispatch "onrowimported"])
        else
          (.ok (createRowResult index 0 .null (.str sid) .null), store2,
            effs ++ [.eventDispatch "onrowimported"]))) := by
  refine ⟨?_, ?_, ?_, ?_, ?_,
    fun hv hcu hf hr =>
      parseRowPersist_afterWrite st row2 index store f sid store2 effs v hv hcu hf hr⟩
  · intro hne hnone
    unfold parseRowE
    simp only [hne, Bool.false_eq_true, if_false]
    unfold triggerEvent
    rw [show normalize "onRowRead" = "onrowread" from rfl, hnone]
    dsimp only
    simp only [show eventVetoes JSVal.null = false from rfl, Bool.false_eq_true, if_false]
    rcases hA : parseRowAfterRead st (normalizeRowHeaders row) index store with ⟨a, b, c⟩
    simp
  · intro hne hf hr
    unfold parseRowE
    simp only [hne, Bool.false_eq_true, if_false]
    unfold triggerEvent
    rw [show normalize "onRowRead" = "onrowread" from rfl, hf]
    dsimp only
    rw [hr]
    dsimp only
    by_cases hveto : eventVetoes v = true
    · rw [if_pos hveto, if_pos hveto]
    · rw [if_neg hveto, if_neg hveto]
      rfl
  · intro hsl hf hr hval hev2
    unfold parseRowValidateSection
    rw [hsl]
    simp only [Bool.false_eq_true, if_false]
    unfold triggerEvent
    rw [show normalize "onRowValidating" = "onrowvalidating" from rfl, hf]
    dsimp only
    rw [hr]
    dsimp only
    by_cases hveto : eventVetoes v = true
    · rw [if_pos hveto, if_pos hveto]
    · rw [if_neg hveto, if_neg hveto, hval]
      dsimp only
      rw [show normalize "onRowValidated" = "onrowvalidated" from rfl, hev2]
      rfl
  · intro hsl hev1 hval hf hr
    unfold parseRowValidateSection
    rw [hsl]
    simp only [Bool.false_eq_true, if_false]
    unfold triggerEvent
    rw [show normalize "onRowValidating" = "onrowvalidating" from rfl, hev1]
    dsimp only
    simp only [show eventVetoes JSVal.null = false from rfl, Bool.false_eq_true, if_false]
    rw [hval]
    dsimp only
    rw [show normalize "onRowValidated" = "onrowvalidated" from rfl, hf]
    dsimp only
    rw [hr]
    dsimp only
    by_cases hveto : eventVetoes v = true
    · rw [if_pos hveto, if_pos hveto]
      rfl
    · rw [if_neg hveto, if_neg hveto]
      rfl
  · intro htr hf hr
    unfold parseRowTail
    rw [htr]
    dsimp only
    unfold triggerEvent
    rw [show normalize "onRowTransformed" = "onrowtransformed" from rfl, hf]
    dsimp only
    rw [hr]
    dsimp only
    by_cases hveto : eventVetoes v = true
    · rw [if_pos hveto, if_pos hveto]
    · rw [if_neg hveto, if_neg hveto]
      rfl

/-- C4 witness: on cfg4 the onRowRead handler returns the number 0, a
non-nil falsy value, and the amended theorem yields the SKIPPED_EVENT
exit at the onRowRead dispatch. -/
theorem c4_witness :
    parseRowE cfg4 row1 2 store0 =
      (.ok (createRowResult 2 2 (.str "onRowRead") .null .null), store0,
        [.eventDispatch "onrowread"]) := by
  have h := (c4_amended_theorem cfg4 row1 [] [] 2 store0
    (fun _ => .ok (.num 0)) (.num 0) "" store0 []).2.1 rfl rfl rfl
  exact h

/- C5 -/

/-- C5: evaluation of the coalescence resolver at the failing input of
the code_bug record. The first three conjuncts pin the failing input
down: exactly one coalescing field a is configured, its value in the row
is nil, and the store holds one (unrelated) record. The resolver then
queries with zero conditions and returns the first record of the store,
and the row takes the update path on that record, where the claim and
the spec intend a null result forcing the create path. -/
theorem c5_code_divergence :
    cfg5.coalescing = ["a"] ∧
    gsNil (objGet data5 "a") = true ∧
    store5.records.length = 1 ∧
    getCoalescenceRecord cfg5 data5 store5 = (.ok (some "r1"), [.storeQuery []]) ∧
    (createUpdateRecord cfg5 data5 store5).2 = [.storeQuery [], .storeUpdate "r1" data5] :=
  ⟨rfl, rfl, rfl, rfl, rfl⟩

/- C8 -/

/-- C8: calling ignore on a header whose normalized form is required, or
require on a header whose normalized form is ignored, returns an error
from that configuration call itself (the embedding returns the error
value instead of a new state, so neither set is modified). -/
theorem c8_theorem (st : ImporterState) (h : String) :
    (st.required.contains (normalize h) = true → ∃ msg, ignore st h = .error msg) ∧
    (st.ignored.contains (normalize h) = true → ∃ msg, require st h = .error msg) := by
  constructor
  · intro hmem
    unfold ignore
    by_cases he : h = ""
    · rw [if_pos he]; exact ⟨_, rfl⟩
    · rw [if_neg he]
      simp only [hmem, if_true]
      exact ⟨_, rfl⟩
  · intro hmem
    unfold require
    by_cases he : h = ""
    · rw [if_pos he]; exact ⟨_, rfl⟩
    · rw [if_neg he]
      simp only [hmem, if_true]
      exact ⟨_, rfl⟩

/-- C8 witness: on cfg8, ignoring the header A (required as a) and
requiring the header B  (ignored as b) both fail. -/
theorem c8_witness :
    (ignore cfg8 "A").isOk = false ∧ (require cfg8 " B ").isOk = false := by
  obtain ⟨m1, h1⟩ := (c8_theorem cfg8 "A").1 rfl
  obtain ⟨m2, h2⟩ := (c8_theorem cfg8 " B ").2 rfl
  rw [h1, h2]
  exact ⟨rfl, rfl⟩

/- C9 -/

/-- C9: in non-virtual mode, when the onRowImported callback returns the
boolean false, the store write has already happened (a create or update
effect precedes the event dispatch in the trace) and the resulting
SKIPPED_EVENT outcome nevertheless carries a null target, so the sys_id
of the written record is not reported. -/
theorem c9_theorem (st : ImporterState) (row : JSObj) (index : Int) (store : Store)
    (f : Handler) (sid : String) (store2 : Store) (effs : List Effect)
    (hv : st.virtual = false)
    (hcu : createUpdateRecord st row store = (.ok (sid, store2), effs))
    (hf : lookupKey st.events "onrowimported" = some f)
    (hr : f (mkEventData (some row) (some index) (.str sid)) = .ok (.bool false)) :
    parseRowPersist st row index store =
      (.ok (createRowResult index 2 (.str "onRowImported") .null .null), store2,
        effs ++ [.eventDispatch "onrowimported"]) ∧
    (createRowResult index 2 (.str "onRowImported") .null .null).target = .null ∧
    ∃ e ∈ effs, isWriteEffect e = true := by
  refine ⟨?_, rfl, ?_⟩
  · have h := parseRowPersist_afterWrite st row index store f sid store2 effs (.bool false)
      hv hcu hf hr
    simpa using h
  · rcases createUpdateRecord_write st row store with ⟨ex, hex⟩ | hW
    · rw [hcu] at hex; simp at hex
    · rw [hcu] at hW; exact hW

/-- C9 witness: the theorem applied to cfg1, the mapped row and the
empty store. -/
theorem c9_witness :
    (parseRowPersist cfg1 [("f", .str "x")] 2 store0).1
      = .ok (createRowResult 2 2 (.str "onRowImported") .null .null) ∧
    (parseRowPersist cfg1 [("f", .str "x")] 2 store0).2.2
      = [Effect.storeCreate "new0" [("f", .str "x")], Effect.eventDispatch "onrowimported"] ∧
    isWriteEffect (Effect.storeCreate "new0" [("f", .str "x")]) = true := by
  have h := c9_theorem cfg1 [("f", .str "x")] 2 store0
    (fun _ => .ok (.bool false)) "new0"
    { records := [{ sys_id := "new0", fields := [("f", .str "x")] }], nextId := 1 }
    [Effect.storeCreate "new0" [("f", .str "x")]]
    rfl rfl rfl rfl
  rw [h.1]
  exact ⟨rfl, rfl, rfl⟩

/- C6 -/

/-- The row loop always yields exactly one result per input row. -/
lemma importRows_length (st : ImporterState) (index : Int) (store : Store)
    (rows : List JSObj) :
    (importRows st index store rows).1.length = rows.length := by
  induction rows generalizing index store with
  | nil => rfl
  | cons r rs ih =>
    simp only [importRows]
    rcases h : parseRow st r index store with ⟨res, s2, e⟩
    rcases h2 : importRows st (index + 1) s2 rs with ⟨rest, s3, e2⟩
    have hlen := ih (index + 1) s2
    rw [h2] at hlen
    simp [hlen]

/-- The results of earlier rows do not depend on the rows that follow
them. -/
lemma importRows_take (st : ImporterState) (index : Int) (store : Store)
    (rows1 rows2 : List JSObj) :
    (importRows st index store (rows1 ++ rows2)).1.take rows1.length
      = (importRows st index store rows1).1 := by
  induction rows1 generalizing index store with
  | nil => simp [importRows]
  | cons r rs ih =>
    simp only [List.cons_append, importRows]
    rcases h : parseRow st r index store with ⟨res, s2, e⟩
    rcases h2 : importRows st (index + 1) s2 (rs ++ rows2) with ⟨restL, sL, eL⟩
    rcases h3 : importRows st (index + 1) s2 rs with ⟨restR, sR, eR⟩
    have htake := ih (index + 1) s2
    rw [h2, h3] at htake
    simp [List.take_succ_cons, htake]

/-- C6: counterexample. A validator throwing the falsy value 0 is an
uncaught exception: the row terminates with the ERROR code, but the
error field holds null (the source computes error || null), not the
captured exception, so the attachment part of the claim fails for falsy
thrown values. -/
theorem c6_counterexample :
    (parseRowE cfg6f row1 2 store0).1 = .error (.num 0) ∧
    (parseRow cfg6f row1 2 store0).1.code = 4 ∧
    (parseRow cfg6f row1 2 store0).1.error = .null ∧
    (parseRow cfg6f row1 2 store0).1.error ≠ .num 0 :=
  ⟨rfl, rfl, rfl, by decide⟩

/-- C6 (amended): an exception thrown at any step of the row pipeline
terminates that row with the ERROR code; the error field holds the
thrown value when it is truthy (which every Error object is) and null
when it is falsy; the run itself is not aborted: the loop still yields
one outcome per row, and the outcomes of the rows already processed are
unchanged by whatever follows. -/
theorem c6_amended_theorem (st : ImporterState) (rawRow : JSObj) (index : Int)
    (store : Store) (ex : JSVal) (rows1 rows2 : List JSObj)
    (hthrow : (parseRowE st rawRow index store).1 = .error ex) :
    (parseRow st rawRow index store).1.code = 4 ∧
    (parseRow st rawRow index store).1.error = (if truthy ex then ex else .null) ∧
    (importRows st index store (rows1 ++ rows2)).1.length = rows1.length + rows2.length ∧
    (importRows st index store (rows1 ++ rows2)).1.take rows1.length
      = (importRows st index store rows1).1 := by
  have hrow : (parseRow st rawRow index store).1 = createRowResult index 4 .null .null ex := by
    unfold parseRow
    rcases h : parseRowE st rawRow index store with ⟨res, s2, e⟩
    rw [h] at hthrow
    dsimp only at hthrow
    rw [hthrow]
  refine ⟨?_, ?_, ?_, importRows_take st index store rows1 rows2⟩
  · rw [hrow]; rfl
  · rw [hrow, createRowResult_error]
  · rw [importRows_length, List.length_append]

/-- C6 witness: the amended theorem applied to cfg6 (whose validator
throws the truthy string boom) on a two-row tail. -/
theorem c6_witness :
    (parseRow cfg6 row1 2 store0).1.code = 4 ∧
    (parseRow cfg6 row1 2 store0).1.error = .str "boom" ∧
    (importRows cfg6 2 store0 ([row1] ++ [row1])).1.length = 2 ∧
    (importRows cfg6 2 store0 ([row1] ++ [row1])).1.take 1
      = (importRows cfg6 2 store0 [row1]).1 := by
  have h := c6_amended_theorem cfg6 row1 2 store0 (.str "boom") [row1] [row1] rfl
  refine ⟨h.1, ?_, ?_, h.2.2.2⟩
  · rw [h.2.1]
    decide
  · have h2 := h.2.2.1
    simpa using h2

/- C7 -/

/-- Keyed lookup step on a cons cell. -/
lemma lookupKey_cons {α : Type} (p : String × α) (ps : List (String × α)) (k : String) :
    lookupKey (p :: ps) k = if p.1 = k then some p.2 else lookupKey ps k := by
  unfold lookupKey
  by_cases hp : p.1 = k
  · rw [List.find?_cons_of_pos _ (by simpa using hp)]
    simp [hp]
  · rw [List.find?_cons_of_neg _ (by simpa using hp)]
    simp [hp]

/-- Keyed lookup commutes with mapping over the stored values. -/
lemma lookupKey_mapSnd {α β : Type} (g : α → β) (m : List (String × α)) (k : String) :
    lookupKey (m.map (fun p => (p.1, g p.2))) k = (lookupKey m k).map g := by
  induction m with
  | nil => rfl
  | cons p ps ih =>
    rw [List.map_cons, lookupKey_cons, lookupKey_cons]
    by_cases hp : p.1 = k
    · simp [hp]
    · simp [hp, ih]

/-- Unfolding step of find? on a cons cell with the branch made
explicit. -/
lemma find?_cons_eq {α : Type} (p : α → Bool) (a : α) (l : List α) :
    (a :: l).find? p = if p a then some a else l.find? p := by
  by_cases h : p a = true
  · rw [List.find?_cons_of_pos _ h, if_pos h]
  · rw [List.find?_cons_of_neg _ (by simpa using h), if_neg h]

/-- On a lifted (non-throwing) chain, _validateRowValues inner loop
returns exactly the first validator in registration order whose result
is not truthy, paired with the field. -/
lemma validateFieldChain_lift (row : JSObj) (f : String) (vs : List PureValidation) :
    validateFieldChain row f (vs.map liftValidation) =
      .ok ((vs.find? (fun v => !(truthy (v.method row f)))).map
        (fun v => (v.message, f))) := by
  induction vs with
  | nil => rfl
  | cons v vs ih =>
    simp only [List.map_cons, validateFieldChain, liftValidation]
    rw [find?_cons_eq]
    by_cases hv : truthy (v.method row f) = true
    · rw [if_pos hv, ih, if_neg (by simp [hv])]
    · rw [if_neg hv, if_pos (by simpa using hv)]
      rfl

/-- Finding the first failing validator in a field block of the
schedule. -/
lemma find?_pair_map (row : JSObj) (f : String) (vs : List PureValidation) :
    (vs.map (fun v => (f, v))).find? (fun p => !(truthy (p.2.method row p.1)))
      = (vs.find? (fun v => !(truthy (v.method row f)))).map (fun v => (f, v)) := by
  induction vs with
  | nil => rfl
  | cons v vs ih =>
    rw [List.map_cons, find?_cons_eq, find?_cons_eq]
    by_cases hv : (!(truthy (v.method row f))) = true
    · rw [if_pos hv, if_pos hv]
      rfl
    · rw [if_neg hv, if_neg hv, ih]

/-- The outer loop of _validateRowValues on a lifted validation table
agrees with the first-failure scan of the claim schedule, for any list
of fields. -/
lemma validateFieldsGo_lift (pv : List (String × List PureValidation)) (row : JSObj)
    (fields : List String) :
    validateFieldsGo (liftValidations pv) row fields =
      .ok (((fields.flatMap (fun f =>
        match lookupKey pv f with
        | none => []
        | some vs => vs.map (fun v => (f, v)))).find?
          (fun p => !(truthy (p.2.method row p.1)))).map
            (fun p => (p.2.message, p.1))) := by
  induction fields with
  | nil => rfl
  | cons f fs ih =>
    have hl : lookupKey (liftValidations pv) f
        = (lookupKey pv f).map (fun vs => vs.map liftValidation) := by
      unfold liftValidations
      exact lookupKey_mapSnd (fun vs => vs.map liftValidation) pv f
    simp only [validateFieldsGo, hl, List.flatMap_cons]
    cases hpv : lookupKey pv f with
    | none =>
      dsimp only [Option.map]
      rw [List.nil_append]
      exact ih
    | some vs =>
      dsimp only [Option.map]
      rw [validateFieldChain_lift, List.find?_append, find?_pair_map]
      cases hfind : vs.find? (fun v => !(truthy (v.method row f))) with
      | none =>
        dsimp only [Option.map, Option.or]
        exact ih
      | some v =>
        dsimp only [Option.map, Option.or]

/-- C7: with sloppy mode off and no onRowValidating handler registered,
_validateRowValues returns exactly the first failure of the claim
schedule (fields in row insertion order, validators in registration
order), and a first failure (m, fl) terminates the row with the
SKIPPED_VALIDATION result whose message is m and whose target is the
offending field fl. -/
theorem c7_theorem (pv : List (String × List PureValidation)) (st : ImporterState)
    (row : JSObj) (index : Int)
    (hval : st.validations = liftValidations pv)
    (hsl : st.sloppy = false)
    (hev : lookupKey st.events "onrowvalidating" = none) :
    validateRowValues st row = .ok (specFirstFailure pv row) ∧
    ∀ m fl, specFirstFailure pv row = some (m, fl) →
      parseRowValidateSection st row index =
        (.ok (some (createRowResult index 3 (.str m) (.str fl) .null)), []) := by
  have hmain : validateRowValues st row = .ok (specFirstFailure pv row) := by
    unfold validateRowValues specFirstFailure specValidationSchedule
    rw [hval]
    exact validateFieldsGo_lift pv row (row.map Prod.fst)
  refine ⟨hmain, ?_⟩
  intro m fl hsf
  have hnorm : normalize "onRowValidating" = "onrowvalidating" := rfl
  unfold parseRowValidateSection
  rw [hsl]
  simp only [Bool.false_eq_true, if_false]
  unfold triggerEvent
  rw [hnorm, hev]
  dsimp only
  rw [hmain, hsf]
  simp only [show eventVetoes JSVal.null = false from rfl, Bool.false_eq_true, if_false]

/-- C7 witness: on cfg7 (two lifted validators on field f) the value x
fails at the first validator with message m1 and the value y fails at
the second with message m2; the validation section reports m1 and the
field f for the value x. -/
theorem c7_witness :
    (validateRowValues cfg7 [("f", .str "x")] = .ok (some ("m1", "f")) ∧
     validateRowValues cfg7 [("f", .str "y")] = .ok (some ("m2", "f"))) ∧
    parseRowValidateSection cfg7 [("f", .str "x")] 2 =
      (.ok (some (createRowResult 2 3 (.str "m1") (.str "f") .null)), []) := by
  have h1 := c7_theorem pv7 cfg7 [("f", .str "x")] 2 rfl rfl rfl
  have h2 := c7_theorem pv7 cfg7 [("f", .str "y")] 2 rfl rfl rfl
  exact ⟨⟨by rw [h1.1]; rfl, by rw [h2.1]; rfl⟩, h1.2 "m1" "f" rfl⟩

/- C10 -/

/-- Writing a fresh key appends the pair. -/
lemma objSet_append (acc : JSObj) (k : String) (v2 : JSVal)
    (h : acc.any (fun p => p.1 = k) = false) :
    objSet acc k v2 = acc ++ [(k, v2)] := by
  unfold objSet
  simp [h]

/-- When the normalized headers of a row are pairwise distinct and
disjoint from the accumulator, the normalization fold appends the
normalized pairs in order. -/
lemma normalizeRowHeaders_go (row : JSObj) (acc : JSObj)
    (hnd : (row.map (fun p => normalize p.1)).Nodup)
    (hdisj : ∀ q ∈ acc, ∀ p ∈ row, q.1 ≠ normalize p.1) :
    row.foldl (fun a p => objSet a (normalize p.1) p.2) acc
      = acc ++ row.map (fun p => (normalize p.1, p.2)) := by
  induction row generalizing acc with
  | nil => simp
  | cons p ps ih =>
    simp only [List.foldl_cons]
    have hnotmem : acc.any (fun q => q.1 = normalize p.1) = false := by
      rw [List.any_eq_false]
      intro q hq
      simpa using hdisj q hq p (List.mem_cons_self p ps)
    rw [objSet_append acc (normalize p.1) p.2 hnotmem]
    rw [List.map_cons, List.nodup_cons] at hnd
    have hdisj2 : ∀ q ∈ acc ++ [(normalize p.1, p.2)], ∀ p2 ∈ ps, q.1 ≠ normalize p2.1 := by
      intro q hq p2 hp2
      rcases List.mem_append.mp hq with hq1 | hq2
      · exact hdisj q hq1 p2 (List.mem_cons_of_mem p hp2)
      · rcases List.mem_singleton.mp hq2 with rfl
        intro hcontra
        apply hnd.1
        have hcontra2 : normalize p.1 = normalize p2.1 := hcontra
        rw [hcontra2]
        exact List.mem_map_of_mem _ hp2
    rw [ih (acc ++ [(normalize p.1, p.2)]) hnd.2 hdisj2]
    simp

/-- On a row without normalized-header collisions, _normalizeRowHeaders
just normalizes every key in place. -/
lemma normalizeRowHeaders_nodup (row : JSObj)
    (hnd : (row.map (fun p => normalize p.1)).Nodup) :
    normalizeRowHeaders row = row.map (fun p => (normalize p.1, p.2)) := by
  unfold normalizeRowHeaders
  simpa using normalizeRowHeaders_go row [] hnd (by simp)

/-- A row holding at least one non-nil value is not empty. -/
lemma isEmptyRow_eq_false (row : JSObj) (p : String × JSVal) (hp : p ∈ row)
    (h : gsNil p.2 = false) : isEmptyRow row = false := by
  unfold isEmptyRow
  rw [decide_eq_false_iff_not]
  intro hlen
  have hmem : p ∈ row.filter (fun q => !(gsNil q.2)) :=
    List.mem_filter.mpr ⟨hp, by simp [h]⟩
  rw [List.length_eq_zero] at hlen
  rw [hlen] at hmem
  exact List.not_mem_nil p hmem

/-- The persistence block only produces the SUCCESS or SKIPPED_EVENT
codes when it returns normally. -/
lemma parseRowPersist_ok_code (st : ImporterState) (row : JSObj) (idx : Int)
    (store : Store) (r : RowResult) (s : Store) (e : List Effect)
    (h : parseRowPersist st row idx store = (.ok r, s, e)) :
    r.code = 0 ∨ r.code = 2 := by
  unfold parseRowPersist at h
  split at h
  · simp only [Prod.mk.injEq, Except.ok.injEq] at h
    exact Or.inl (by rw [← h.1]; rfl)
  · split at h
    · simp at h
    · split at h
      · simp at h
      · split at h
        · simp only [Prod.mk.injEq, Except.ok.injEq] at h
          exact Or.inr (by rw [← h.1]; rfl)
        · simp only [Prod.mk.injEq, Except.ok.injEq] at h
          exact Or.inl (by rw [← h.1]; rfl)

/-- The tail of the pipeline only produces the SUCCESS or SKIPPED_EVENT
codes when it returns normally. -/
lemma parseRowTail_ok_code (st : ImporterState) (row : JSObj) (idx : Int)
    (store : Store) (r : RowResult) (s : Store) (e : List Effect)
    (h : parseRowTail st row idx store = (.ok r, s, e)) :
    r.code = 0 ∨ r.code = 2 := by
  unfold parseRowTail at h
  split at h
  · simp at h
  · split at h
    · simp at h
    · split at h
      · simp only [Prod.mk.injEq, Except.ok.injEq] at h
        exact Or.inr (by rw [← h.1]; rfl)
      · split at h
        next res store2 effs2 heq =>
          simp only [Prod.mk.injEq] at h
          rcases h with ⟨h1, h2, h3⟩
          subst h1
          exact parseRowPersist_ok_code st _ idx store r store2 effs2 heq

/-- The validation section only produces the SKIPPED_EVENT or
SKIPPED_VALIDATION codes when it exits the row early. -/
lemma parseRowValidateSection_some_code (st : ImporterState) (row : JSObj) (idx : Int)
    (r : RowResult) (e : List Effect)
    (h : parseRowValidateSection st row idx = (.ok (some r), e)) :
    r.code = 2 ∨ r.code = 3 := by
  unfold parseRowValidateSection at h
  split at h
  · simp at h
  · split at h
    · simp at h
    · split at h
      · simp only [Prod.mk.injEq, Except.ok.injEq, Option.some.injEq] at h
        exact Or.inl (by rw [← h.1]; rfl)
      · split at h
        · simp at h
        · simp only [Prod.mk.injEq, Except.ok.injEq, Option.some.injEq] at h
          exact Or.inr (by rw [← h.1]; rfl)
        · split at h
          · simp at h
          · split at h
            · simp only [Prod.mk.injEq, Except.ok.injEq, Option.some.injEq] at h
              exact Or.inl (by rw [← h.1]; rfl)
            · simp at h

/-- After the onRowRead stage the pipeline only produces the codes 0, 2
or 3 when it returns normally. -/
lemma parseRowAfterRead_ok_code (st : ImporterState) (row : JSObj) (idx : Int)
    (store : Store) (r : RowResult) (s : Store) (e : List Effect)
    (h : parseRowAfterRead st row idx store = (.ok r, s, e)) :
    r.code = 0 ∨ r.code = 2 ∨ r.code = 3 := by
  unfold parseRowAfterRead at h
  dsimp only at h
  split at h
  · simp at h
  · next r2 effs heq =>
    simp only [Prod.mk.injEq, Except.ok.injEq] at h
    rcases h with ⟨h1, h2, h3⟩
    subst h1
    rcases parseRowValidateSection_some_code st _ idx r2 effs heq with h4 | h4
    · exact Or.inr (Or.inl h4)
    · exact Or.inr (Or.inr h4)
  · simp only [Prod.mk.injEq] at h
    rcases h with ⟨h1, h2, h3⟩
    rcases htail : parseRowTail st (mapHeadersToFields st (ignoreRowHeaders st row)) idx store
      with ⟨res, s2, e2⟩
    rw [htail] at h1
    dsimp only at h1
    subst h1
    rcases parseRowTail_ok_code st _ idx store r s2 e2 htail with h4 | h4
    · exact Or.inl h4
    · exact Or.inr (Or.inl h4)

/-- A row that is not empty after header normalization never receives
the SKIPPED_EMPTY code. -/
lemma parseRow_code_ne_one (st : ImporterState) (row : JSObj) (idx : Int) (store : Store)
    (hne : isEmptyRow (normalizeRowHeaders row) = false) :
    (parseRow st row idx store).1.code ≠ 1 := by
  unfold parseRow
  rcases hE : parseRowE st row idx store with ⟨res, s, e⟩
  cases res with
  | error ex => simp
  | ok r =>
    dsimp only
    unfold parseRowE at hE
    dsimp only at hE
    simp only [hne, Bool.false_eq_true, if_false] at hE
    split at hE
    · simp at hE
    · split at hE
      · simp only [Prod.mk.injEq, Except.ok.injEq] at hE
        rw [← hE.1]
        simp
      · simp only [Prod.mk.injEq] at hE
        rcases hE with ⟨h1, h2, h3⟩
        rcases hA : parseRowAfterRead st (normalizeRowHeaders row) idx store
          with ⟨res2, s2, e2⟩
        rw [hA] at h1
        dsimp only at h1
        subst h1
        rcases parseRowAfterRead_ok_code st _ idx store r s2 e2 hA
          with h4 | h4 | h4 <;> omega

/-- C10: counterexample. The row row10 holds its only non-nil value
under the header A, whose normalized form a is ignored in cfg10; the
claim says such a row is never classified SKIPPED_EMPTY, yet because the
second header a collides with the first after normalization and
overwrites the value with nil, the row is classified SKIPPED_EMPTY
(code 1). -/
theorem c10_counterexample :
    cfg10.ignored.contains (normalize "A") = true ∧
    gsNil (.str "x") = false ∧
    gsNil .null = true ∧
    (parseRow cfg10 row10 2 store0).1.code = 1 :=
  ⟨rfl, rfl, rfl, rfl⟩

/-- C10 (amended): the empty-row check runs on the header-normalized row
before ignored headers are removed and before mapping; for every row
whose headers normalize injectively, which holds a non-nil value, and
whose non-nil values all lie under ignored headers, the row is not
classified SKIPPED_EMPTY and continues into the pipeline. -/
theorem c10_amended_theorem (st : ImporterState) (row : JSObj) (idx : Int) (store : Store)
    (hnd : (row.map (fun p => normalize p.1)).Nodup)
    (hex : ∃ p ∈ row, gsNil p.2 = false ∧ st.ignored.contains (normalize p.1) = true)
    (_hall : ∀ p ∈ row, gsNil p.2 = false → st.ignored.contains (normalize p.1) = true) :
    (parseRow st row idx store).1.code ≠ 1 := by
  rcases hex with ⟨p, hp, hnil, -⟩
  have hmem : (normalize p.1, p.2) ∈ normalizeRowHeaders row := by
    rw [normalizeRowHeaders_nodup row hnd]
    exact List.mem_map_of_mem _ hp
  exact parseRow_code_ne_one st row idx store
    (isEmptyRow_eq_false _ _ hmem hnil)

/-- C10 witness: the amended theorem on a collision-free row whose only
value lies under the ignored header A. -/
theorem c10_witness : (parseRow cfg10 [("A", .str "x")] 2 store0).1.code ≠ 1 :=
  c10_amended_theorem cfg10 [("A", .str "x")] 2 store0 (by decide)
    ⟨("A", .str "x"), by decide⟩ (by decide)

/- C3 -/

/-- C3: counterexample, refuting the claim and forcing every clause of
the amendment. With an onRowImported handler returning false, the same
two-row file produces the row codes [3, 0] in virtual mode but [3, 2] in
non-virtual mode (the second row is event-skipped only when persistence
runs); the virtual run carries the non-null target f on its
validation-skipped row, contradicting the every-target-null part; and
with a throwing onCoalesce handler (cfg3b, over a store holding a
matching record) the codes again differ, [0] virtually against [4]
non-virtually, since only the non-virtual run resolves coalescence. -/
theorem c3_counterexample :
    outputRowCodes (runImport { cfg3 with virtual := true } input3 store0) = [3, 0] ∧
    outputRowCodes (runImport { cfg3 with virtual := false } input3 store0) = [3, 2] ∧
    outputRowTargets (runImport { cfg3 with virtual := true } input3 store0)
      = [.str "f", .null] ∧
    outputRowCodes (runImport { cfg3b with virtual := true } input3b store3b) = [0] ∧
    outputRowCodes (runImport { cfg3b with virtual := false } input3b store3b) = [4] :=
  ⟨rfl, rfl, rfl, rfl, rfl⟩

/-- Projection of a toggled virtual flag. -/
lemma setVirtual_virtual (st : ImporterState) (b : Bool) :
    ({ st with virtual := b } : ImporterState).virtual = b := rfl

/-- Toggling virtual leaves the registered events unchanged. -/
lemma setVirtual_events (st : ImporterState) (b : Bool) :
    ({ st with virtual := b } : ImporterState).events = st.events := rfl

/-- Result code of a row computation, with a thrown exception counting
as the ERROR code the catch clause will assign. -/
def resCode : Except JSVal RowResult → Nat
  | .ok r => r.code
  | .error _ => 4

/-- The code of a parsed row is the resCode of the try body. -/
lemma parseRow_code_resCode (st : ImporterState) (row : JSObj) (idx : Int) (store : Store) :
    (parseRow st row idx store).1.code = resCode (parseRowE st row idx store).1 := by
  unfold parseRow
  rcases h : parseRowE st row idx store with ⟨res, s, e⟩
  cases res <;> simp [resCode]

/-- With no throwing onCoalesce handler, the candidate loop never
throws. -/
lemma coalesceLoop_ok (events : List (String × Handler))
    (hco : ∀ f, lookupKey events "oncoalesce" = some f → ∀ d, ∃ v, f d = .ok v)
    (recs : List StoreRecord) :
    ∃ o effs, coalesceLoop events recs = (.ok o, effs) := by
  induction recs with
  | nil => exact ⟨none, [], rfl⟩
  | cons r rest ih =>
    have hnorm : normalize "onCoalesce" = "oncoalesce" := rfl
    unfold coalesceLoop triggerEvent
    rw [hnorm]
    cases hl : lookupKey events "oncoalesce" with
    | none => exact ⟨some r.sys_id, [], rfl⟩
    | some f =>
      obtain ⟨v, hfv⟩ := hco f hl (mkEventData none none (.str r.sys_id))
      dsimp only
      rw [hfv]
      dsimp only
      by_cases hv : (gsNil v || truthy v) = true
      · exact ⟨some r.sys_id, _, by rw [if_pos hv]⟩
      · obtain ⟨o, effs, hrec⟩ := ih
        refine ⟨o, [Effect.eventDispatch "oncoalesce"] ++ effs, ?_⟩
        rw [if_neg hv, hrec]

/-- With no throwing onCoalesce handler, coalescence resolution never
throws. -/
lemma getCoalescenceRecord_ok (st : ImporterState) (data : JSObj) (store : Store)
    (hco : ∀ f, lookupKey st.events "oncoalesce" = some f → ∀ d, ∃ v, f d = .ok v) :
    ∃ o effs, getCoalescenceRecord st data store = (.ok o, effs) := by
  unfold getCoalescenceRecord
  by_cases hlen : st.coalescing.length = 0
  · rw [if_pos hlen]
    exact ⟨none, [], rfl⟩
  · rw [if_neg hlen]
    dsimp only
    obtain ⟨o, effs, h⟩ := coalesceLoop_ok st.events hco
      (store.records.filter (condsMatch (coalesceConds st data)))
    rw [h]
    exact ⟨o, _, rfl⟩

/-- With no throwing onCoalesce handler, the store write itself never
throws. -/
lemma createUpdateRecord_ok (st : ImporterState) (data : JSObj) (store : Store)
    (hco : ∀ f, lookupKey st.events "oncoalesce" = some f → ∀ d, ∃ v, f d = .ok v) :
    ∃ sid store2 effs, createUpdateRecord st data store = (.ok (sid, store2), effs) := by
  unfold createUpdateRecord
  obtain ⟨o, effs, h⟩ := getCoalescenceRecord_ok st data store hco
  rw [h]
  cases o with
  | none => exact ⟨_, _, _, rfl⟩
  | some sid => exact ⟨_, _, _, rfl⟩

/-- Virtual persistence: nothing happens and the success result carries
a null target. -/
lemma parseRowPersist_virtual (st : ImporterState) (row : JSObj) (idx : Int)
    (store : Store) (hv : st.virtual = true) :
    parseRowPersist st row idx store
      = (.ok (createRowResult idx 0 .null .null .null), store, []) := by
  unfold parseRowPersist
  rw [hv, if_pos rfl]

/-- Non-virtual persistence with no onRowImported handler and no
throwing onCoalesce handler always reaches the success result carrying
the written sys_id. -/
lemma parseRowPersist_nonvirtual (st : ImporterState) (row : JSObj) (idx : Int)
    (store : Store)
    (hv : st.virtual = false)
    (hev : lookupKey st.events "onrowimported" = none)
    (hco : ∀ f, lookupKey st.events "oncoalesce" = some f → ∀ d, ∃ v, f d = .ok v) :
    ∃ sid store2 effs,
      parseRowPersist st row idx store
        = (.ok (createRowResult idx 0 .null (.str sid) .null), store2, effs) := by
  obtain ⟨sid, store2, effs, hcu⟩ := createUpdateRecord_ok st row store hco
  have hnorm : normalize "onRowImported" = "onrowimported" := rfl
  unfold parseRowPersist
  rw [hv]
  simp only [Bool.false_eq_true, if_false]
  rw [hcu]
  dsimp only
  unfold triggerEvent
  rw [hnorm, hev]
  exact ⟨sid, store2, effs ++ [], rfl⟩

/-- Toggling virtual changes no row code in the pipeline tail, for any
pair of stores, when no onRowImported handler is registered and the
onCoalesce handler (if any) never throws. -/
lemma parseRowTail_code_eq (st : ImporterState) (row : JSObj) (idx : Int)
    (s1 s2 : Store)
    (hev : lookupKey st.events "onrowimported" = none)
    (hco : ∀ f, lookupKey st.events "oncoalesce" = some f → ∀ d, ∃ v, f d = .ok v) :
    resCode (parseRowTail { st with virtual := true } row idx s1).1
      = resCode (parseRowTail { st with virtual := false } row idx s2).1 := by
  unfold parseRowTail
  rw [show transformRowValues { st with virtual := true } row
        = transformRowValues st row from rfl,
      show transformRowValues { st with virtual := false } row
        = transformRowValues st row from rfl]
  cases htr : transformRowValues st row with
  | error ex => rfl
  | ok row2 =>
    dsimp only
    rw [setVirtual_events, setVirtual_events]
    rcases hev2 : triggerEvent st.events "onRowTransformed" (some row2) (some idx) .null
      with ⟨tv, teffs⟩
    cases tv with
    | error ex => rfl
    | ok v =>
      dsimp only
      by_cases hveto : eventVetoes v = true
      · rw [if_pos hveto, if_pos hveto]
      · rw [if_neg hveto, if_neg hveto]
        rw [parseRowPersist_virtual { st with virtual := true } row2 idx s1 rfl]
        obtain ⟨sid, store2, effs, hp⟩ :=
          parseRowPersist_nonvirtual { st with virtual := false } row2 idx s2 rfl hev hco
        rw [hp]
        rfl

/-- Toggling virtual changes no row code from the ignore-and-map stage
onward. -/
lemma parseRowAfterRead_code_eq (st : ImporterState) (row : JSObj) (idx : Int)
    (s1 s2 : Store)
    (hev : lookupKey st.events "onrowimported" = none)
    (hco : ∀ f, lookupKey st.events "oncoalesce" = some f → ∀ d, ∃ v, f d = .ok v) :
    resCode (parseRowAfterRead { st with virtual := true } row idx s1).1
      = resCode (parseRowAfterRead { st with virtual := false } row idx s2).1 := by
  unfold parseRowAfterRead
  dsimp only
  rw [show ignoreRowHeaders { st with virtual := true } row
        = ignoreRowHeaders st row from rfl,
      show ignoreRowHeaders { st with virtual := false } row
        = ignoreRowHeaders st row from rfl,
      show mapHeadersToFields { st with virtual := true } (ignoreRowHeaders st row)
        = mapHeadersToFields st (ignoreRowHeaders st row) from rfl,
      show mapHeadersToFields { st with virtual := false } (ignoreRowHeaders st row)
        = mapHeadersToFields st (ignoreRowHeaders st row) from rfl,
      show parseRowValidateSection { st with virtual := true }
          (mapHeadersToFields st (ignoreRowHeaders st row)) idx
        = parseRowValidateSection st
          (mapHeadersToFields st (ignoreRowHeaders st row)) idx from rfl,
      show parseRowValidateSection { st with virtual := false }
          (mapHeadersToFields st (ignoreRowHeaders st row)) idx
        = parseRowValidateSection st
          (mapHeadersToFields st (ignoreRowHeaders st row)) idx from rfl]
  rcases hsec : parseRowValidateSection st
      (mapHeadersToFields st (ignoreRowHeaders st row)) idx with ⟨secres, seceffs⟩
  match secres with
  | .error ex => rfl
  | .ok (some r) => rfl
  | .ok none =>
    dsimp only
    exact parseRowTail_code_eq st _ idx s1 s2 hev hco

/-- Toggling virtual changes no row code for a whole row, for any pair
of stores. -/
lemma parseRow_code_eq (st : ImporterState) (row : JSObj) (idx : Int) (s1 s2 : Store)
    (hev : lookupKey st.events "onrowimported" = none)
    (hco : ∀ f, lookupKey st.events "oncoalesce" = some f → ∀ d, ∃ v, f d = .ok v) :
    (parseRow { st with virtual := true } row idx s1).1.code
      = (parseRow { st with virtual := false } row idx s2).1.code := by
  rw [parseRow_code_resCode, parseRow_code_resCode]
  unfold parseRowE
  dsimp only
  by_cases hemp : isEmptyRow (normalizeRowHeaders row) = true
  · rw [if_pos hemp, if_pos hemp]
  · rw [if_neg hemp, if_neg hemp, setVirtual_events, setVirtual_events]
    rcases hev2 : triggerEvent st.events "onRowRead" (some (normalizeRowHeaders row))
        (some idx) .null with ⟨tv, teffs⟩
    cases tv with
    | error ex => rfl
    | ok v =>
      dsimp only
      by_cases hveto : eventVetoes v = true
      · rw [if_pos hveto, if_pos hveto]
      · rw [if_neg hveto, if_neg hveto]
        exact parseRowAfterRead_code_eq st _ idx s1 s2 hev hco

/-- Event dispatches never write the store. -/
lemma triggerEvent_noWrites (events : List (String × Handler)) (e : String)
    (row : Option JSObj) (idx : Option Int) (sysid : JSVal) :
    ∀ eff ∈ (triggerEvent events e row idx sysid).2, isWriteEffect eff = false := by
  unfold triggerEvent
  cases lookupKey events (normalize e) with
  | none => intro eff h; simp at h
  | some f =>
    intro eff h
    simp only [List.mem_singleton] at h
    rw [h]
    rfl

/-- The validation section never writes the store. -/
lemma parseRowValidateSection_noWrites (st : ImporterState) (row : JSObj) (idx : Int) :
    ∀ eff ∈ (parseRowValidateSection st row idx).2, isWriteEffect eff = false := by
  unfold parseRowValidateSection
  by_cases hs : st.sloppy = true
  · rw [if_pos hs]; intro eff h; simp at h
  · rw [if_neg hs]
    have h1 := triggerEvent_noWrites st.events "onRowValidating" (some row) (some idx) .null
    rcases ht1 : triggerEvent st.events "onRowValidating" (some row) (some idx) .null
      with ⟨r1, e1⟩
    rw [ht1] at h1
    cases r1 with
    | error ex => exact h1
    | ok v =>
      dsimp only
      by_cases hveto : eventVetoes v = true
      · rw [if_pos hveto]; exact h1
      · rw [if_neg hveto]
        cases hval : validateRowValues st row with
        | error ex => exact h1
        | ok o =>
          cases o with
          | some r => exact h1
          | none =>
            have h2 := triggerEvent_noWrites st.events "onRowValidated" (some row)
              (some idx) .null
            rcases ht2 : triggerEvent st.events "onRowValidated" (some row) (some idx) .null
              with ⟨r2, e2⟩
            rw [ht2] at h2
            cases r2 with
            | error ex =>
              intro eff h
              rcases List.mem_append.mp h with h | h
              exacts [h1 eff h, h2 eff h]
            | ok v2 =>
              dsimp only
              by_cases hveto2 : eventVetoes v2 = true
              · rw [if_pos hveto2]
                intro eff h
                rcases List.mem_append.mp h with h | h
                exacts [h1 eff h, h2 eff h]
              · rw [if_neg hveto2]
                intro eff h
                rcases List.mem_append.mp h with h | h
                exacts [h1 eff h, h2 eff h]

/-- In virtual mode the pipeline tail never writes the store. -/
lemma parseRowTail_noWrites (st : ImporterState) (row : JSObj) (idx : Int)
    (store : Store) (hv : st.virtual = true) :
    ∀ eff ∈ (parseRowTail st row idx store).2.2, isWriteEffect eff = false := by
  unfold parseRowTail
  cases htr : transformRowValues st row with
  | error ex => intro eff h; simp at h
  | ok row2 =>
    dsimp only
    have h1 := triggerEvent_noWrites st.events "onRowTransformed" (some row2) (some idx) .null
    rcases ht1 : triggerEvent st.events "onRowTransformed" (some row2) (some idx) .null
      with ⟨r1, e1⟩
    rw [ht1] at h1
    cases r1 with
    | error ex => exact h1
    | ok v =>
      dsimp only
      by_cases hveto : eventVetoes v = true
      · rw [if_pos hveto]; exact h1
      · rw [if_neg hveto, parseRowPersist_virtual st row2 idx store hv]
        intro eff h
        dsimp only at h
        rcases List.mem_append.mp h with h | h
        · exact h1 eff h
        · simp at h

/-- In virtual mode the stage after onRowRead never writes the store. -/
lemma parseRowAfterRead_noWrites (st : ImporterState) (row : JSObj) (idx : Int)
    (store : Store) (hv : st.virtual = true) :
    ∀ eff ∈ (parseRowAfterRead st row idx store).2.2, isWriteEffect eff = false := by
  unfold parseRowAfterRead
  dsimp only
  have h1 := parseRowValidateSection_noWrites st
    (mapHeadersToFields st (ignoreRowHeaders st row)) idx
  rcases hsec : parseRowValidateSection st
      (mapHeadersToFields st (ignoreRowHeaders st row)) idx with ⟨secres, seceffs⟩
  rw [hsec] at h1
  cases secres with
  | error ex => exact h1
  | ok o =>
    cases o with
    | some r => exact h1
    | none =>
      dsimp only
      intro eff h
      rcases List.mem_append.mp h with h | h
      · exact h1 eff h
      · exact parseRowTail_noWrites st _ idx store hv eff h

/-- In virtual mode a parsed row never writes the store. -/
lemma parseRow_noWrites (st : ImporterState) (row : JSObj) (idx : Int)
    (store : Store) (hv : st.virtual = true) :
    ∀ eff ∈ (parseRow st row idx store).2.2, isWriteEffect eff = false := by
  have hE : ∀ eff ∈ (parseRowE st row idx store).2.2, isWriteEffect eff = false := by
    unfold parseRowE
    dsimp only
    by_cases hemp : isEmptyRow (normalizeRowHeaders row) = true
    · rw [if_pos hemp]; intro eff h; simp at h
    · rw [if_neg hemp]
      have h1 := triggerEvent_noWrites st.events "onRowRead"
        (some (normalizeRowHeaders row)) (some idx) .null
      rcases ht1 : triggerEvent st.events "onRowRead" (some (normalizeRowHeaders row))
          (some idx) .null with ⟨r1, e1⟩
      rw [ht1] at h1
      cases r1 with
      | error ex => exact h1
      | ok v =>
        dsimp only
        by_cases hveto : eventVetoes v = true
        · rw [if_pos hveto]; exact h1
        · rw [if_neg hveto]
          intro eff h
          dsimp only at h
          rcases List.mem_append.mp h with h | h
          · exact h1 eff h
          · exact parseRowAfterRead_noWrites st _ idx store hv eff h
  unfold parseRow
  rcases hE2 : parseRowE st row idx store with ⟨res, s, e⟩
  rw [hE2] at hE
  cases res <;> exact hE

/-- The validation section early exit carries either the offending
field (validation skip) or a null target. -/
lemma parseRowValidateSection_some_target (st : ImporterState) (row : JSObj) (idx : Int)
    (r : RowResult) (e : List Effect)
    (h : parseRowValidateSection st row idx = (.ok (some r), e)) :
    r.code = 3 ∨ r.target = .null := by
  unfold parseRowValidateSection at h
  split at h
  · simp at h
  · split at h
    · simp at h
    · split at h
      · simp only [Prod.mk.injEq, Except.ok.injEq, Option.some.injEq] at h
        exact Or.inr (by rw [← h.1]; rfl)
      · split at h
        · simp at h
        · simp only [Prod.mk.injEq, Except.ok.injEq, Option.some.injEq] at h
          exact Or.inl (by rw [← h.1]; rfl)
        · split at h
          · simp at h
          · split at h
            · simp only [Prod.mk.injEq, Except.ok.injEq, Option.some.injEq] at h
              exact Or.inr (by rw [← h.1]; rfl)
            · simp at h

/-- In virtual mode a normally returning pipeline tail carries a null
target. -/
lemma parseRowTail_virtual_target (st : ImporterState) (row : JSObj) (idx : Int)
    (store : Store) (r : RowResult) (s : Store) (e : List Effect)
    (hv : st.virtual = true)
    (h : parseRowTail st row idx store = (.ok r, s, e)) :
    r.target = .null := by
  unfold parseRowTail at h
  split at h
  · simp at h
  · split at h
    · simp at h
    · split at h
      · simp only [Prod.mk.injEq, Except.ok.injEq] at h
        rw [← h.1]
        rfl
      · rw [parseRowPersist_virtual st _ idx store hv] at h
        simp only [Prod.mk.injEq, Except.ok.injEq] at h
        rw [← h.1]
        rfl

/-- In virtual mode a normally returning row (after onRowRead) carries
either the validation code 3 or a null target. -/
lemma parseRowAfterRead_virtual_target (st : ImporterState) (row : JSObj) (idx : Int)
    (store : Store) (r : RowResult) (s : Store) (e : List Effect)
    (hv : st.virtual = true)
    (h : parseRowAfterRead st row idx store = (.ok r, s, e)) :
    r.code = 3 ∨ r.target = .null := by
  unfold parseRowAfterRead at h
  dsimp only at h
  split at h
  · simp at h
  · next r2 effs heq =>
    simp only [Prod.mk.injEq, Except.ok.injEq] at h
    rcases h with ⟨h1, h2, h3⟩
    subst h1
    exact parseRowValidateSection_some_target st _ idx r2 effs heq
  · simp only [Prod.mk.injEq] at h
    rcases h with ⟨h1, h2, h3⟩
    rcases htail : parseRowTail st (mapHeadersToFields st (ignoreRowHeaders st row)) idx store
      with ⟨res, s2, e2⟩
    rw [htail] at h1
    dsimp only at h1
    subst h1
    exact Or.inr (parseRowTail_virtual_target st _ idx store r s2 e2 hv htail)

/-- In virtual mode every row result carries either the validation code
3 (with the offending field as target) or a null target. -/
lemma parseRow_virtual_target (st : ImporterState) (row : JSObj) (idx : Int)
    (store : Store) (hv : st.virtual = true) :
    (parseRow st row idx store).1.code = 3 ∨ (parseRow st row idx store).1.target = .null := by
  unfold parseRow
  rcases hE : parseRowE st row idx store with ⟨res, s, e⟩
  cases res with
  | error ex => exact Or.inr rfl
  | ok r =>
    dsimp only
    unfold parseRowE at hE
    dsimp only at hE
    split at hE
    · simp only [Prod.mk.injEq, Except.ok.injEq] at hE
      rw [← hE.1]
      exact Or.inr rfl
    · split at hE
      · simp at hE
      · split at hE
        · simp only [Prod.mk.injEq, Except.ok.injEq] at hE
          rw [← hE.1]
          exact Or.inr rfl
        · simp only [Prod.mk.injEq] at hE
          rcases hE with ⟨h1, h2, h3⟩
          rcases hA : parseRowAfterRead st (normalizeRowHeaders row) idx store
            with ⟨res2, s2, e2⟩
          rw [hA] at h1
          dsimp only at h1
          subst h1
          exact parseRowAfterRead_virtual_target st _ idx store r s2 e2 hv hA

/-- Toggling virtual changes no row code across the whole row loop. -/
lemma importRows_codes_eq (st : ImporterState) (rows : List JSObj) (idx : Int)
    (s1 s2 : Store)
    (hev : lookupKey st.events "onrowimported" = none)
    (hco : ∀ f, lookupKey st.events "oncoalesce" = some f → ∀ d, ∃ v, f d = .ok v) :
    (importRows { st with virtual := true } idx s1 rows).1.map RowResult.code
      = (importRows { st with virtual := false } idx s2 rows).1.map RowResult.code := by
  induction rows generalizing idx s1 s2 with
  | nil => rfl
  | cons r rs ih =>
    simp only [importRows]
    rcases h1 : parseRow { st with virtual := true } r idx s1 with ⟨res1, s1b, e1⟩
    rcases h2 : parseRow { st with virtual := false } r idx s2 with ⟨res2, s2b, e2⟩
    rcases h3 : importRows { st with virtual := true } (idx + 1) s1b rs with ⟨rest1, s1c, e1c⟩
    rcases h4 : importRows { st with virtual := false } (idx + 1) s2b rs with ⟨rest2, s2c, e2c⟩
    dsimp only
    simp only [List.map_cons]
    have hc := parseRow_code_eq st r idx s1 s2 hev hco
    rw [h1, h2] at hc
    have hrest := ih (idx + 1) s1b s2b
    rw [h3, h4] at hrest
    dsimp only at hc hrest
    rw [hc, hrest]

/-- In virtual mode the whole row loop never writes the store. -/
lemma importRows_noWrites (st : ImporterState) (rows : List JSObj) (idx : Int)
    (store : Store) (hv : st.virtual = true) :
    ∀ eff ∈ (importRows st idx store rows).2.2, isWriteEffect eff = false := by
  induction rows generalizing idx store with
  | nil => intro eff h; simp [importRows] at h
  | cons r rs ih =>
    simp only [importRows]
    have hrow := parseRow_noWrites st r idx store hv
    rcases h1 : parseRow st r idx store with ⟨res1, s1b, e1⟩
    rw [h1] at hrow
    have hrest := ih (idx + 1) s1b
    rcases h2 : importRows st (idx + 1) s1b rs with ⟨rest, s2, e2⟩
    rw [h2] at hrest
    dsimp only
    intro eff h
    rcases List.mem_append.mp h with h | h
    · exact hrow eff h
    · exact hrest eff h

/-- In virtual mode every collected row result carries either the
validation code 3 or a null target. -/
lemma importRows_virtual_targets (st : ImporterState) (rows : List JSObj) (idx : Int)
    (store : Store) (hv : st.virtual = true) :
    ∀ r ∈ (importRows st idx store rows).1, r.code = 3 ∨ r.target = .null := by
  induction rows generalizing idx store with
  | nil => intro r h; simp [importRows] at h
  | cons r0 rs ih =>
    simp only [importRows]
    have hrow := parseRow_virtual_target st r0 idx store hv
    rcases h1 : parseRow st r0 idx store with ⟨res1, s1b, e1⟩
    rw [h1] at hrow
    have hrest := ih (idx + 1) s1b
    rcases h2 : importRows st (idx + 1) s1b rs with ⟨rest, s2, e2⟩
    rw [h2] at hrest
    dsimp only
    intro r h
    rcases List.mem_cons.mp h with h | h
    · rw [h]; exact hrow
    · exact hrest r h

/-- A normally returning row with the validation code exited at the
validation section, whose result and effects it carries unchanged. -/
lemma parseRowAfterRead_code3 (st : ImporterState) (row : JSObj) (idx : Int)
    (store : Store) (r : RowResult) (s : Store) (e : List Effect)
    (h : parseRowAfterRead st row idx store = (.ok r, s, e)) (h3 : r.code = 3) :
    parseRowValidateSection st (mapHeadersToFields st (ignoreRowHeaders st row)) idx
      = (.ok (some r), e) := by
  unfold parseRowAfterRead at h
  dsimp only at h
  split at h
  · simp at h
  · next r2 effs heq =>
    simp only [Prod.mk.injEq, Except.ok.injEq] at h
    rcases h with ⟨h1, h2, h3e⟩
    subst h1
    subst h3e
    exact heq
  · simp only [Prod.mk.injEq] at h
    rcases h with ⟨h1, h2, h3e⟩
    rcases htail : parseRowTail st (mapHeadersToFields st (ignoreRowHeaders st row)) idx store
      with ⟨res, s2, e2⟩
    rw [htail] at h1
    dsimp only at h1
    subst h1
    rcases parseRowTail_ok_code st _ idx store r s2 e2 htail with h4 | h4 <;> omega

/-- Characterization of a validation-coded row at the try-body level:
the row was not empty, the onRowRead dispatch did not veto, and the
validation section produced exactly this result. -/
lemma parseRowE_code3 (st : ImporterState) (row : JSObj) (idx : Int) (store : Store)
    (r : RowResult) (s : Store) (e : List Effect)
    (h : parseRowE st row idx store = (.ok r, s, e)) (h3 : r.code = 3) :
    isEmptyRow (normalizeRowHeaders row) = false ∧
    ∃ v te seceffs,
      triggerEvent st.events "onRowRead" (some (normalizeRowHeaders row)) (some idx) .null
        = (.ok v, te) ∧
      eventVetoes v = false ∧
      parseRowValidateSection st
          (mapHeadersToFields st (ignoreRowHeaders st (normalizeRowHeaders row))) idx
        = (.ok (some r), seceffs) := by
  unfold parseRowE at h
  dsimp only at h
  by_cases hemp : isEmptyRow (normalizeRowHeaders row) = true
  · rw [if_pos hemp] at h
    simp only [Prod.mk.injEq, Except.ok.injEq] at h
    rw [← h.1, createRowResult_code] at h3
    exact absurd h3 (by decide)
  · refine ⟨by simpa using hemp, ?_⟩
    rw [if_neg hemp] at h
    rcases ht : triggerEvent st.events "onRowRead" (some (normalizeRowHeaders row))
        (some idx) .null with ⟨tv, te⟩
    rw [ht] at h
    cases tv with
    | error ex => simp at h
    | ok v =>
      dsimp only at h
      by_cases hveto : eventVetoes v = true
      · rw [if_pos hveto] at h
        simp only [Prod.mk.injEq, Except.ok.injEq] at h
        rw [← h.1, createRowResult_code] at h3
        exact absurd h3 (by decide)
      · rw [if_neg hveto] at h
        simp only [Prod.mk.injEq] at h
        rcases h with ⟨h1, h2, h3e⟩
        rcases hA : parseRowAfterRead st (normalizeRowHeaders row) idx store
          with ⟨res2, s2b, e2b⟩
        rw [hA] at h1
        dsimp only at h1
        subst h1
        exact ⟨v, te, e2b, rfl, by simpa using hveto,
          parseRowAfterRead_code3 st _ idx store r s2b e2b hA h3⟩

/-- Reconstruction: a non-vetoed onRowRead dispatch followed by a
validation-section exit determines the try-body result, for any store. -/
lemma parseRowE_of_section (st : ImporterState) (row : JSObj) (idx : Int) (store : Store)
    (r : RowResult) (v : JSVal) (te seceffs : List Effect)
    (hemp : isEmptyRow (normalizeRowHeaders row) = false)
    (ht : triggerEvent st.events "onRowRead" (some (normalizeRowHeaders row)) (some idx) .null
      = (.ok v, te))
    (hv : eventVetoes v = false)
    (hsec : parseRowValidateSection st
        (mapHeadersToFields st (ignoreRowHeaders st (normalizeRowHeaders row))) idx
      = (.ok (some r), seceffs)) :
    parseRowE st row idx store = (.ok r, store, te ++ seceffs) := by
  unfold parseRowE
  dsimp only
  simp only [hemp, Bool.false_eq_true, if_false]
  rw [ht]
  dsimp only
  simp only [hv, Bool.false_eq_true, if_false]
  unfold parseRowAfterRead
  dsimp only
  rw [hsec]

/-- A virtual-mode row outcome with the validation code is produced
before the two modes diverge, so the non-virtual run yields the
identical outcome (same message and same offending-field target) for
that row, over any pair of stores. -/
lemma parseRow_validation_eq (st : ImporterState) (row : JSObj) (idx : Int)
    (s1 s2 : Store)
    (h3 : (parseRow { st with virtual := true } row idx s1).1.code = 3) :
    (parseRow { st with virtual := false } row idx s2).1
      = (parseRow { st with virtual := true } row idx s1).1 := by
  unfold parseRow at h3 ⊢
  rcases hE1 : parseRowE { st with virtual := true } row idx s1 with ⟨res1, sa, ea⟩
  rw [hE1] at h3
  cases res1 with
  | error ex =>
    rw [createRowResult_code] at h3
    exact absurd h3 (by decide)
  | ok r =>
    dsimp only at h3 ⊢
    obtain ⟨hemp, v, te, seceffs, ht, hv, hsec⟩ :=
      parseRowE_code3 { st with virtual := true } row idx s1 r sa ea hE1 h3
    have ht2 : triggerEvent ({ st with virtual := false } : ImporterState).events "onRowRead"
        (some (normalizeRowHeaders row)) (some idx) .null = (.ok v, te) := ht
    have hsec2 : parseRowValidateSection { st with virtual := false }
        (mapHeadersToFields { st with virtual := false }
          (ignoreRowHeaders { st with virtual := false } (normalizeRowHeaders row))) idx
        = (.ok (some r), seceffs) := hsec
    have hE2 := parseRowE_of_section { st with virtual := false } row idx s2 r v te seceffs
      hemp ht2 hv hsec2
    rw [hE2]

/-- Position by position, a virtual validation-skipped outcome equals
the non-virtual outcome at that position. -/
lemma importRows_validation_eq (st : ImporterState) (rows : List JSObj) (idx : Int)
    (s1 s2 : Store) :
    List.Forall₂ (fun rv rn => rv.code = 3 → rn = rv)
      (importRows { st with virtual := true } idx s1 rows).1
      (importRows { st with virtual := false } idx s2 rows).1 := by
  induction rows generalizing idx s1 s2 with
  | nil => exact List.Forall₂.nil
  | cons r0 rs ih =>
    simp only [importRows]
    rcases h1 : parseRow { st with virtual := true } r0 idx s1 with ⟨res1, s1b, e1⟩
    rcases h2 : parseRow { st with virtual := false } r0 idx s2 with ⟨res2, s2b, e2⟩
    rcases h3 : importRows { st with virtual := true } (idx + 1) s1b rs with ⟨rest1, s1c, e1c⟩
    rcases h4 : importRows { st with virtual := false } (idx + 1) s2b rs with ⟨rest2, s2c, e2c⟩
    dsimp only
    refine List.Forall₂.cons ?_ ?_
    · intro hc3
      have heq := parseRow_validation_eq st r0 idx s1 s2 (by rw [h1]; exact hc3)
      rw [h1, h2] at heq
      exact heq
    · have hfa := ih (idx + 1) s1b s2b
      rw [h3, h4] at hfa
      exact hfa

/-- C3 (amended): provided no onRowImported callback is registered and
any onCoalesce callback never throws, a virtual run produces exactly the
row codes of the non-virtual run over any pair of stores; the virtual
run issues no store create or update effect at all; each of its row
outcomes carries a null target except validation skips; and every
validation-skipped virtual outcome equals the non-virtual outcome at the
same position outright, so it carries the offending field name exactly
as in non-virtual mode. -/
theorem c3_amended_theorem (st : ImporterState) (input : ParserInput) (s1 s2 : Store)
    (hev : lookupKey st.events "onrowimported" = none)
    (hco : ∀ f, lookupKey st.events "oncoalesce" = some f → ∀ d, ∃ v, f d = .ok v) :
    outputRowCodes (runImport { st with virtual := true } input s1)
      = outputRowCodes (runImport { st with virtual := false } input s2) ∧
    (∀ eff ∈ (runImport { st with virtual := true } input s1).effects,
      isWriteEffect eff = false) ∧
    (∀ rs r, (runImport { st with virtual := true } input s1).result.data = .rowResults rs →
      r ∈ rs → r.code = 3 ∨ r.target = .null) ∧
    (∀ rs1 rs2,
      (runImport { st with virtual := true } input s1).result.data = .rowResults rs1 →
      (runImport { st with virtual := false } input s2).result.data = .rowResults rs2 →
      List.Forall₂ (fun rv rn => rv.code = 3 → rn = rv) rs1 rs2) := by
  unfold runImport
  rw [show ({ st with virtual := true } : ImporterState).sloppy = st.sloppy from rfl,
      show ({ st with virtual := false } : ImporterState).sloppy = st.sloppy from rfl,
      show validateHeaders { st with virtual := true } input.headers
        = validateHeaders st input.headers from rfl,
      show validateHeaders { st with virtual := false } input.headers
        = validateHeaders st input.headers from rfl]
  by_cases hok : input.parseOk = true
  · simp only [hok, Bool.not_true, Bool.false_eq_true, if_false]
    by_cases hhead : (!st.sloppy && !(validateHeaders st input.headers).success) = true
    · rw [if_pos hhead, if_pos hhead]
      refine ⟨rfl, ?_, ?_, ?_⟩
      · intro eff h; simp at h
      · intro rs r hdata; simp [createReturnValue] at hdata
      · intro rs1 rs2 hdata; simp [createReturnValue] at hdata
    · rw [if_neg hhead, if_neg hhead]
      have hcodes := importRows_codes_eq st input.rows 2 s1 s2 hev hco
      have hnw := importRows_noWrites { st with virtual := true } input.rows 2 s1 rfl
      have htg := importRows_virtual_targets { st with virtual := true } input.rows 2 s1 rfl
      have hfa := importRows_validation_eq st input.rows 2 s1 s2
      rcases h1 : importRows { st with virtual := true } 2 s1 input.rows
        with ⟨res1, s1b, e1⟩
      rcases h2 : importRows { st with virtual := false } 2 s2 input.rows
        with ⟨res2, s2b, e2⟩
      rw [h1, h2] at hcodes hfa
      rw [h1] at hnw htg
      dsimp only at hcodes hnw htg hfa
      refine ⟨?_, hnw, ?_, ?_⟩
      · unfold outputRowCodes createReturnValue
        dsimp only
        exact hcodes
      · intro rs r hdata hmem
        unfold createReturnValue at hdata
        dsimp only at hdata
        injection hdata with hdata
        rw [← hdata] at hmem
        exact htg r hmem
      · intro rs1 rs2 hdata1 hdata2
        unfold createReturnValue at hdata1 hdata2
        dsimp only at hdata1 hdata2
        injection hdata1 with hdata1
        injection hdata2 with hdata2
        rw [← hdata1, ← hdata2]
        exact hfa
  · have hok2 : input.parseOk = false := by
      cases h : input.parseOk
      · rfl
      · exact absurd h hok
    simp only [hok2, Bool.not_false, if_true]
    refine ⟨rfl, ?_, ?_, ?_⟩
    · intro eff h; simp at h
    · intro rs r hdata; simp [createReturnValue] at hdata
    · intro rs1 rs2 hdata; simp [createReturnValue] at hdata

/-- C3 witness: the amended theorem on the cfg3 validators with the
event handlers removed, over the two-row file and two empty stores. -/
theorem c3_witness :
    outputRowCodes (runImport { cfg3 with virtual := true, events := [] } input3 store0)
      = outputRowCodes (runImport { cfg3 with virtual := false, events := [] } input3 store0) := by
  have h := c3_amended_theorem { cfg3 with events := [] } input3 store0 store0 rfl
    (fun f hf => by simp [lookupKey] at hf)
  exact h.1

end XLSXImporter
